import Mathlib

/-!
Shallow embedding of the `angular-migrator` tool (TypeScript sources under
`src/`): the result data model (`src/types.ts`), package-manifest utilities
(`src/utils/pkg.ts`), workspace-config utilities (`src/utils/angular-json.ts`),
the structural codemod primitives (`src/utils/codemods.ts`), the four
version-boundary migration steps (`src/migrations/*.ts`) and the pipeline
orchestrator (`src/migrator.ts`).

Modelling conventions:
* JavaScript objects that are used as string-keyed maps (package.json
  dependency sections) are modelled as insertion-ordered association lists
  `List (String × String)` with JS semantics for get / `in` / assignment /
  `delete`.
* A ts-morph `SourceFile` is modelled by the flattened record `SFile` holding
  the projections the codemods query: import declarations, identifier
  descendants, class declarations with decorators / constructors / fields,
  expression trees (for `getDescendantsOfKind(CallExpression)` and
  `PropertyAccessExpression`), binary expressions and type references.
* The file system is the explicit `World` record; `saveSync` /
  `writeFileSync` update it, gated on `dryRun` exactly where the source gates
  them.  Exceptions are modelled with `Except String`.
-/

namespace AngularMigrator

/-- `src/types.ts` — `Change`: an edit actually applied. -/
structure Change where
  file : String
  description : String
  before : Option String := none
  after : Option String := none
  deriving DecidableEq, Repr

/-- `src/types.ts` — `Warning`: a detected pattern needing a human decision. -/
structure Warning where
  file : String
  message : String
  line : Option Nat := none
  deriving DecidableEq, Repr

/-- `src/types.ts` — `MigrationError`. -/
structure MigrationError where
  file : String
  message : String
  deriving DecidableEq, Repr

/-- `src/types.ts` — `MigrationResult`: one step's aggregated outcome. -/
structure MigrationResult where
  step : String
  changes : List Change
  warnings : List Warning
  errors : List MigrationError
  deriving DecidableEq, Repr

/-- `src/types.ts` — `MigrationContext` (the `logger` sink is console output,
out of modelled scope; `skipPackageJson` is set by `migrate` and read by
`src/utils/pkg.ts`). -/
structure MigrationContext where
  projectPath : String
  fromVersion : Int
  toVersion : Int
  dryRun : Bool
  skipPackageJson : Bool
  deriving DecidableEq, Repr

/-! ## JavaScript string-keyed object helpers -/

/-- JS property read `o[k]` on a string-map object. -/
def jsGet (o : List (String × String)) (k : String) : Option String :=
  (o.find? (fun e => e.1 == k)).map (·.2)

/-- JS `k in o`. -/
def jsHas (o : List (String × String)) (k : String) : Bool :=
  o.any (fun e => e.1 == k)

/-- JS assignment `o[k] = v`: updates an existing key in place, else appends. -/
def jsSet : List (String × String) → String → String → List (String × String)
  | [], k, v => [(k, v)]
  | e :: rest, k, v => if e.1 == k then (k, v) :: rest else e :: jsSet rest k v

/-- JS `delete o[k]`. -/
def jsDelete : List (String × String) → String → List (String × String)
  | [], _ => []
  | e :: rest, k => if e.1 == k then rest else e :: jsDelete rest k

/-- JS object spread `\x7b...a, ...b\x7d`: entries of `b` override `a`. -/
def jsMerge (a b : List (String × String)) : List (String × String) :=
  b.foldl (fun acc e => jsSet acc e.1 e.2) a

/-- JS `String.prototype.includes`: scan the text for an occurrence of the
pattern (an empty pattern always occurs). -/
def strContains (s sub : String) : Bool :=
  strContains.occurs sub.toList s.toList
where
  occurs (pat : List Char) : List Char → Bool
  | [] => pat.isEmpty
  | c :: rest => pat.isPrefixOf (c :: rest) || occurs pat rest

/-- JS `s.charAt(0).toUpperCase() + s.slice(1)`. -/
def jsCapitalize (s : String) : String :=
  match s.toList with
  | [] => ""
  | c :: rest => String.mk (c.toUpper :: rest)

/-- JS `String.prototype.replace` with a plain-string pattern: first
occurrence only. -/
def jsReplaceFirst (s pat repl : String) : String :=
  match s.splitOn pat with
  | [] => s
  | x :: rest => if rest.isEmpty then s else x ++ repl ++ String.intercalate pat rest

/-! ## package.json model (`src/utils/pkg.ts`) -/

/-- `PackageJson` restricted to the three dependency sections the tool
reads and writes (unknown keys are preserved by the source verbatim and are
not modelled). -/
structure Pkg where
  dependencies : Option (List (String × String)) := none
  devDependencies : Option (List (String × String)) := none
  peerDependencies : Option (List (String × String)) := none
  deriving DecidableEq, Repr

/-! ## angular.json model (`src/utils/angular-json.ts`) -/

/-- `options.polyfills` is either a string or an array of strings. -/
inductive PolyV where
  | strVal (s : String)
  | arrVal (xs : List String)
  deriving DecidableEq, Repr

/-- The `options` sub-object of a build target, restricted to the keys the
migration touches (`main`, `browser`, `polyfills`); remaining keys are
preserved verbatim by the source and not modelled. -/
structure BuildOptionsM where
  main : Option String := none
  browser : Option String := none
  polyfills : Option PolyV := none
  deriving DecidableEq, Repr

/-- One architect target of an angular.json project. -/
structure BuildTargetM where
  builder : Option String := none
  options : Option BuildOptionsM := none
  deriving DecidableEq, Repr

/-- One angular.json project entry. -/
structure AProjectM where
  architect : Option (List (String × BuildTargetM)) := none
  deriving DecidableEq, Repr

/-- The angular.json document, restricted to the keys the tool touches. -/
structure AJson where
  defaultProject : Option String := none
  projects : Option (List (String × AProjectM)) := none
  deriving DecidableEq, Repr

/-! ## ts-morph source-file model -/

/-- One `import \x7b a, b \x7d from 'mod'` declaration: the module specifier
and the named-import specifier names. -/
structure ImportDeclM where
  moduleSpecifier : String
  namedImports : List String
  deriving DecidableEq, Repr

/-- One identifier descendant of the file outside the structured projections,
with the `Node.isImportSpecifier(parent)` flag the rename codemods test, and
the flag of the parent node being an unrelated declaration (a method,
property, parameter or variable declaration whose name this identifier is) —
an AST observation the codemods never query. -/
structure IdentM where
  text : String
  parentIsImportSpecifier : Bool
  parentIsDeclaration : Bool := false
  deriving DecidableEq, Repr

/-- Expression trees, as far as the codemods pattern-match them. -/
inductive CExpr where
  | identE (text : String)
  | litE (text : String)
  | propAccess (obj : CExpr) (name : String)
  | call (fn : CExpr) (args : List CExpr)

/-- `getText()` of an expression (structural rendering). -/
def cexprText : CExpr → String
  | .identE t => t
  | .litE t => t
  | .propAccess o n => cexprText o ++ "." ++ n
  | .call f args => cexprText f ++ "(" ++ cexprTextArgs args ++ ")"
where
  cexprTextArgs : List CExpr → String
  | [] => ""
  | [e] => cexprText e
  | e :: rest => cexprText e ++ ", " ++ cexprTextArgs rest

/-- `getDescendantsOfKind(SyntaxKind.CallExpression)` on one expression tree
(document order; a call node is listed before the calls nested inside it). -/
def callDesc : CExpr → List CExpr
  | .identE _ => []
  | .litE _ => []
  | .propAccess o _ => callDesc o
  | .call f args => .call f args :: (callDesc f ++ callDescList args)
where
  callDescList : List CExpr → List CExpr
  | [] => []
  | e :: rest => callDesc e ++ callDescList rest

/-- `getDescendantsOfKind(SyntaxKind.PropertyAccessExpression)` on one
expression tree. -/
def paDesc : CExpr → List CExpr
  | .identE _ => []
  | .litE _ => []
  | .propAccess o n => .propAccess o n :: paDesc o
  | .call f args => paDesc f ++ paDescList args
where
  paDescList : List CExpr → List CExpr
  | [] => []
  | e :: rest => paDesc e ++ paDescList rest

/-- Kinds of object-literal members (`Node.isPropertyAssignment` only holds
for the first). -/
inductive PropKindM where
  | propertyAssignment
  | shorthandPropertyAssignment
  | otherMember
  deriving DecidableEq, Repr

/-- Elements of an array-literal decorator property. -/
inductive ArrElemM where
  | identElem (text : String)
  | callElem (text : String)
  | otherElem (text : String)
  deriving DecidableEq, Repr

/-- Initializer of an object-literal member. -/
inductive PropValM where
  | arrayVal (elems : List ArrElemM)
  | textVal (text : String)
  deriving DecidableEq, Repr

/-- One member of a decorator-argument object literal. -/
structure ObjPropM where
  kind : PropKindM
  name : String
  value : PropValM
  deriving DecidableEq, Repr

/-- One decorator argument: an object literal or anything else. -/
inductive DecArgM where
  | objectLit (props : List ObjPropM)
  | otherArg (text : String)
  deriving DecidableEq, Repr

/-- One decorator, e.g. `@NgModule(\x7b...\x7d)`. -/
structure DecoratorM where
  name : String
  args : List DecArgM
  deriving DecidableEq, Repr

/-- One constructor parameter (only its declared type text is queried). -/
structure ParamM where
  typeText : Option String
  deriving DecidableEq, Repr

/-- One class field (only its declared type text is queried). -/
structure FieldM where
  typeText : Option String
  deriving DecidableEq, Repr

/-- One class constructor. -/
structure CtorM where
  params : List ParamM
  deriving DecidableEq, Repr

/-- One class declaration. -/
structure ClassM where
  name : Option String
  decorators : List DecoratorM
  ctors : List CtorM
  properties : List FieldM
  deriving DecidableEq, Repr

/-- One type-reference node (`ModuleWithProviders` check). -/
structure TypeRefM where
  text : String
  typeArgCount : Nat
  deriving DecidableEq, Repr

/-- One binary expression (only its left-hand side is queried). -/
structure BinM where
  left : CExpr

/-- Flattened model of one ts-morph `SourceFile`. -/
structure SFile where
  path : String
  imports : List ImportDeclM
  bodyIdents : List IdentM
  classes : List ClassM
  topExprs : List CExpr
  binaryExprs : List BinM
  typeRefs : List TypeRefM

/-- All `CallExpression` descendants of a file. -/
def fileCallDesc (sf : SFile) : List CExpr :=
  callDesc.callDescList sf.topExprs ++ callDesc.callDescList (sf.binaryExprs.map (·.left))

/-- All `PropertyAccessExpression` descendants of a file. -/
def filePropAccessDesc (sf : SFile) : List CExpr :=
  paDesc.paDescList sf.topExprs ++ paDesc.paDescList (sf.binaryExprs.map (·.left))

/-- Rendering of one object-literal member, for `getText()` checks. -/
def objPropText (p : ObjPropM) : String :=
  p.name ++ ": " ++
    (match p.value with
     | .arrayVal es => "[" ++ String.intercalate ", " (es.map (fun e =>
         match e with
         | .identElem t => t
         | .callElem t => t
         | .otherElem t => t)) ++ "]"
     | .textVal t => t)

/-- `getText()` of a decorator argument. -/
def decArgText : DecArgM → String
  | .objectLit props => "\x7b " ++ String.intercalate ", " (props.map objPropText) ++ " \x7d"
  | .otherArg t => t

/-! ## The file system (`World`) -/

/-- The observable on-disk project state: package.json, angular.json, the
project TypeScript files (every `**/*.ts` file — both the ts-morph project
load and the zone.js glob read these, so a text rewrite of a candidate file
is seen by a later project load), other non-TypeScript text files, and the
generated report document. -/
structure World where
  pkg : Option Pkg := none
  angularJson : Option AJson := none
  tsFiles : List SFile := []
  textFiles : List (String × String) := []
  report : Option (List String) := none

/-- `fs.writeFileSync` of one TypeScript file (`sf.saveSync()`): replace the
on-disk file with the same path, appending if absent. -/
def saveInto : List SFile → SFile → List SFile
  | [], sf => [sf]
  | f :: rest, sf => if f.path == sf.path then sf :: rest else f :: saveInto rest sf

/-- `saveSync` as an update of the world. -/
def saveTsFile (sf : SFile) (w : World) : World :=
  { w with tsFiles := saveInto w.tsFiles sf }

/-! ## `src/utils/pkg.ts` -/

/-- `readPackageJson`: throws when package.json is absent. -/
def readPackageJson (w : World) : Except String Pkg :=
  match w.pkg with
  | none => .error "package.json not found"
  | some p => .ok p

/-- `writePackageJson`. -/
def writePackageJson (p : Pkg) (w : World) : World :=
  { w with pkg := some p }

/-- First maximal digit run of a string — the JS regex match `/(\d+)/`. -/
def firstDigitRun (s : String) : Option String :=
  let run := (s.toList.dropWhile (fun c => !c.isDigit)).takeWhile (·.isDigit)
  if run.isEmpty then none else some (String.mk run)

/-- `parseInt(digits, 10)` on a pure digit string. -/
def parseIntDec (s : String) : Int :=
  Int.ofNat (s.foldl (fun n c => n * 10 + (c.toNat - 48)) 0)

/-- `detectAngularVersion`: leading integer of the `@angular/core` entry of
the merged dependencies (`\x7b...deps, ...devDeps\x7d`); throws when the entry
is missing/empty or holds no digits. -/
def detectAngularVersion (w : World) : Except String Int := do
  let pkg ← readPackageJson w
  let deps := jsMerge (pkg.dependencies.getD []) (pkg.devDependencies.getD [])
  match jsGet deps "@angular/core" with
  | none => .error "@angular/core not found in dependencies"
  | some version =>
    if version == "" then
      .error "@angular/core not found in dependencies"
    else
      match firstDigitRun version with
      | none => .error ("Cannot parse Angular version from: " ++ version)
      | some d => .ok (parseIntDec d)

/-- The three dependency sections scanned by the pkg utilities, as
projection/update pairs, in source order. -/
def pkgSections : List (String × (Pkg → Option (List (String × String))) ×
    (Pkg → Option (List (String × String)) → Pkg)) :=
  [ ("dependencies", Pkg.dependencies, fun p d => { p with dependencies := d })
  , ("devDependencies", Pkg.devDependencies, fun p d => { p with devDependencies := d })
  , ("peerDependencies", Pkg.peerDependencies, fun p d => { p with peerDependencies := d }) ]

/-- One update entry of `updatePackageVersions` applied to one section: the
entry is rewritten and reported iff its key is present and the stored version
differs. -/
def updateOne (sectionName : String) (acc : List (String × String) × List Change)
    (u : String × String) : List (String × String) × List Change :=
  match jsGet acc.1 u.1 with
  | none => acc
  | some oldVersion =>
    if oldVersion == u.2 then acc
    else
      (jsSet acc.1 u.1 u.2,
       acc.2 ++ [{ file := "package.json",
                   description := sectionName ++ ": " ++ u.1 ++ " " ++ oldVersion ++ " → " ++ u.2,
                   before := some oldVersion, after := some u.2 }])

/-- Inner loop of `updatePackageVersions` over one dependency section. -/
def updateSection (sectionName : String) (updates : List (String × String))
    (deps : List (String × String)) : List (String × String) × List Change :=
  updates.foldl (updateOne sectionName) (deps, [])

/-- Pure core of `updatePackageVersions`: all three sections in order. -/
def updatePkgCore (pkg : Pkg) (updates : List (String × String)) : Pkg × List Change :=
  pkgSections.foldl
    (fun acc s =>
      match s.2.1 acc.1 with
      | none => acc
      | some deps =>
        let (deps', cs) := updateSection s.1 updates deps
        (s.2.2 acc.1 (some deps'), acc.2 ++ cs))
    (pkg, [])

/-- `updatePackageVersions`: skip guard, read, update, conditional write. -/
def updatePackageVersions (ctx : MigrationContext) (updates : List (String × String))
    (w : World) : Except String (List Change × World) :=
  if ctx.skipPackageJson then .ok ([], w)
  else do
    let pkg ← readPackageJson w
    let (pkg', changes) := updatePkgCore pkg updates
    .ok (changes, if changes ≠ [] ∧ ¬ctx.dryRun then writePackageJson pkg' w else w)

/-- Pure core of `replacePackageDependency` over one section. -/
def replaceInSection (sectionName oldName newName newVersion : String)
    (deps : List (String × String)) : List (String × String) × List Change :=
  match jsGet deps oldName with
  | none => (deps, [])
  | some oldVersion =>
    (jsSet (jsDelete deps oldName) newName newVersion,
     [{ file := "package.json",
        description := sectionName ++ ": replaced " ++ oldName ++ " (" ++ oldVersion ++
          ") with " ++ newName ++ " (" ++ newVersion ++ ")",
        before := none, after := none }])

/-- Pure core of `replacePackageDependency`: all three sections. -/
def replacePkgCore (pkg : Pkg) (oldName newName newVersion : String) : Pkg × List Change :=
  pkgSections.foldl
    (fun acc s =>
      match s.2.1 acc.1 with
      | none => acc
      | some deps =>
        let (deps', cs) := replaceInSection s.1 oldName newName newVersion deps
        (s.2.2 acc.1 (some deps'), acc.2 ++ cs))
    (pkg, [])

/-- `replacePackageDependency`. -/
def replacePackageDependency (ctx : MigrationContext) (oldName newName newVersion : String)
    (w : World) : Except String (List Change × World) :=
  if ctx.skipPackageJson then .ok ([], w)
  else do
    let pkg ← readPackageJson w
    let (pkg', changes) := replacePkgCore pkg oldName newName newVersion
    .ok (changes, if changes ≠ [] ∧ ¬ctx.dryRun then writePackageJson pkg' w else w)

/-! ## `src/utils/angular-json.ts` -/

/-- `readAngularJson`: `null` when the file is absent. -/
def readAngularJson (w : World) : Option AJson := w.angularJson

/-- `writeAngularJson`. -/
def writeAngularJson (config : AJson) (w : World) : World :=
  { w with angularJson := some config }

/-- Browser→application rewrite on one `build` target, with its changes. -/
def migrateBuildTarget (projectName : String) (t : BuildTargetM) :
    BuildTargetM × List Change :=
  if t.builder == some "@angular-devkit/build-angular:browser" then
    let c0 : Change :=
      { file := "angular.json",
        description := "[" ++ projectName ++ "] builder: browser → application",
        before := some "@angular-devkit/build-angular:browser",
        after := some "@angular-devkit/build-angular:application" }
    let (options', optChanges) :=
      match t.options with
      | none => ((none : Option BuildOptionsM), ([] : List Change))
      | some o =>
        let (o1, c1) :=
          if o.main.isSome then
            ({ o with browser := o.main, main := none },
             ([{ file := "angular.json",
                 description := "[" ++ projectName ++ "] options: \"main\" renamed to \"browser\"",
                 before := none, after := none }] : List Change))
          else (o, [])
        let (o2, c2) :=
          match o1.polyfills with
          | some (.strVal s) =>
            ({ o1 with polyfills := some (.arrVal [s]) },
             ([{ file := "angular.json",
                 description := "[" ++ projectName ++ "] options.polyfills converted from string to array",
                 before := none, after := none }] : List Change))
          | _ => (o1, [])
        (some o2, c1 ++ c2)
    ({ t with builder := some "@angular-devkit/build-angular:application", options := options' },
     c0 :: optChanges)
  else if t.builder == some "@angular-devkit/build-angular:browser-esbuild" then
    ({ t with builder := some "@angular-devkit/build-angular:application" },
     [{ file := "angular.json",
        description := "[" ++ projectName ++ "] builder: browser-esbuild → application",
        before := some "@angular-devkit/build-angular:browser-esbuild",
        after := some "@angular-devkit/build-angular:application" }])
  else (t, [])

/-- Pure core of `migrateBrowserBuilderToApplication` over the whole config
(only architect entries named `build` are touched). -/
def migrateBuilderCore (config : AJson) : AJson × List Change :=
  match config.projects with
  | none => (config, [])
  | some projects =>
    let processed : List ((String × AProjectM) × List Change) :=
      projects.map (fun (pe : String × AProjectM) =>
      let (projectName, project) := pe
      match project.architect with
      | none => (pe, ([] : List Change))
      | some architect =>
        let arches : List ((String × BuildTargetM) × List Change) :=
          architect.map (fun (te : String × BuildTargetM) =>
          if te.1 == "build" then
            let (t', cs) := migrateBuildTarget projectName te.2
            ((te.1, t'), cs)
          else (te, []))
        (((projectName, { project with architect := some (arches.map (·.1)) }) :
            String × AProjectM),
         (arches.map (·.2)).flatten))
    ({ config with projects := some (processed.map (·.1)) },
     (processed.map (·.2)).flatten)

/-- `migrateBrowserBuilderToApplication`. -/
def migrateBrowserBuilderToApplication (ctx : MigrationContext) (w : World) :
    List Change × World :=
  match readAngularJson w with
  | none => ([], w)
  | some config =>
    match config.projects with
    | none => ([], w)
    | some _ =>
      let (config', changes) := migrateBuilderCore config
      (changes, if changes ≠ [] ∧ ¬ctx.dryRun then writeAngularJson config' w else w)

/-- `removeDefaultProject`. -/
def removeDefaultProject (ctx : MigrationContext) (w : World) : List Change × World :=
  match readAngularJson w with
  | none => ([], w)
  | some config =>
    match config.defaultProject with
    | none => ([], w)
    | some _ =>
      let config' : AJson := { config with defaultProject := none }
      ([{ file := "angular.json",
          description := "Removed deprecated \"defaultProject\" field",
          before := none, after := none }],
       if ¬ctx.dryRun then writeAngularJson config' w else w)

/-! ## `src/utils/codemods.ts` -/

/-- `createTsProject` loads every on-disk `**/*.ts` file of the project at
call time: it re-reads the current disk state, including any candidate file
the zone.js fix rewrote earlier in the same run. -/
def createTsProject (w : World) : List SFile := w.tsFiles

/-- `getSourceFiles`: drop files under node_modules or dist. -/
def getSourceFiles (files : List SFile) : List SFile :=
  files.filter (fun sf => !(strContains sf.path "node_modules") && !(strContains sf.path "/dist/"))

/-- Common shape of the codemods: visit each source file of the in-memory
project, produce the rewritten file, its changes and warnings, and persist
the file iff it changed and the run is not a preview. -/
def runPerFile (perFile : SFile → SFile × Bool × List Change × List Warning)
    (ctx : MigrationContext) : List SFile → World →
    List Change × List Warning × List SFile × World
  | [], w => ([], [], [], w)
  | sf :: rest, w =>
    let (sf', fileChanged, cs, ws) := perFile sf
    let w1 := if fileChanged && !ctx.dryRun then saveTsFile sf' w else w
    let (cs2, ws2, mem2, w2) := runPerFile perFile ctx rest w1
    (cs ++ cs2, ws ++ ws2, sf' :: mem2, w2)

/-- Changes of a per-file codemod over a file list (independent of the
context and the file system). -/
def perFileCs (f : SFile → SFile × Bool × List Change × List Warning)
    (files : List SFile) : List Change :=
  (files.map (fun sf => (f sf).2.2.1)).flatten

/-- Warnings of a per-file codemod over a file list. -/
def perFileWs (f : SFile → SFile × Bool × List Change × List Warning)
    (files : List SFile) : List Warning :=
  (files.map (fun sf => (f sf).2.2.2)).flatten

/-- In-memory output trees of a per-file codemod over a file list. -/
def perFileMem (f : SFile → SFile × Bool × List Change × List Warning)
    (files : List SFile) : List SFile :=
  files.map (fun sf => (f sf).1)

/-- Does some import of `moduleName` bind `name`? -/
def importHasNamed (imps : List ImportDeclM) (moduleName name : String) : Bool :=
  imps.any (fun imp => imp.moduleSpecifier == moduleName && imp.namedImports.contains name)

/-- Rename every `oldName` specifier of every import of `moduleName`
(`ni.setName(newName)`). -/
def renameSpecifiers (moduleName oldName newName : String)
    (imps : List ImportDeclM) : List ImportDeclM :=
  imps.map (fun imp =>
    if imp.moduleSpecifier == moduleName then
      { imp with namedImports := imp.namedImports.map (fun n => if n == oldName then newName else n) }
    else imp)

/-- The body-identifier pass of `renameNamedImport`: rename identifiers whose
text matches and whose parent is not an import specifier. -/
def renameIdent (oldName newName : String) (id : IdentM) : IdentM :=
  if id.text == oldName && !id.parentIsImportSpecifier then { id with text := newName } else id

/-- Per-file body of `renameNamedImport`. -/
def renamePerFile (moduleName oldName newName : String) (sf : SFile) :
    SFile × Bool × List Change × List Warning :=
  let fileChanged := importHasNamed sf.imports moduleName oldName
  if fileChanged then
    ({ sf with imports := renameSpecifiers moduleName oldName newName sf.imports,
               bodyIdents := sf.bodyIdents.map (renameIdent oldName newName) },
     true,
     [{ file := sf.path,
        description := oldName ++ " → " ++ newName ++ " (import from \x27" ++ moduleName ++ "\x27)",
        before := none, after := none }],
     [])
  else (sf, false, [], [])

/-- `renameNamedImport`. -/
def renameNamedImport (sourceFiles : List SFile) (moduleName oldName newName : String)
    (ctx : MigrationContext) (w : World) : List Change × List SFile × World :=
  let (cs, _, mem, w') := runPerFile (renamePerFile moduleName oldName newName) ctx sourceFiles w
  (cs, mem, w')

/-- Drop the first list entry satisfying `p` (node `remove()`). -/
def removeFirstImport (p : ImportDeclM → Bool) : List ImportDeclM → List ImportDeclM
  | [] => []
  | imp :: rest => if p imp then rest else imp :: removeFirstImport p rest

/-- Rewrite the first list entry satisfying `p`. -/
def modifyFirstImport (p : ImportDeclM → Bool) (f : ImportDeclM → ImportDeclM) :
    List ImportDeclM → List ImportDeclM
  | [] => []
  | imp :: rest => if p imp then f imp :: rest else imp :: modifyFirstImport p f rest

/-- Drop the first named-import specifier equal to `name`
(`find(...)?.remove()`). -/
def removeFirstNamed (name : String) : List String → List String
  | [] => []
  | n :: rest => if n == name then rest else n :: removeFirstNamed name rest

/-- The find predicate shared by `moveImport` / `removeObsoleteImport`:
an import of the module binding the symbol. -/
def importBinds (moduleName symbolName : String) (imp : ImportDeclM) : Bool :=
  imp.moduleSpecifier == moduleName && imp.namedImports.contains symbolName

/-- Remove `symbolName` from the first import of `moduleName` binding it:
the whole statement when it was the only binding, else just the specifier. -/
def removeSymbolFromImports (moduleName symbolName : String)
    (imps : List ImportDeclM) (oldImport : ImportDeclM) : List ImportDeclM :=
  if oldImport.namedImports.length == 1 then
    removeFirstImport (importBinds moduleName symbolName) imps
  else
    modifyFirstImport (importBinds moduleName symbolName)
      (fun imp => { imp with namedImports := removeFirstNamed symbolName imp.namedImports }) imps

/-- Per-file body of `moveImport`: remove from the old module, then merge
into an existing import of the new module or create a fresh one. -/
def movePerFile (symbolName fromModule toModule : String) (sf : SFile) :
    SFile × Bool × List Change × List Warning :=
  match sf.imports.find? (importBinds fromModule symbolName) with
  | none => (sf, false, [], [])
  | some oldImport =>
    let afterRemove := removeSymbolFromImports fromModule symbolName sf.imports oldImport
    let imports' :=
      if afterRemove.any (fun imp => imp.moduleSpecifier == toModule) then
        modifyFirstImport (fun imp => imp.moduleSpecifier == toModule)
          (fun imp => { imp with namedImports := imp.namedImports ++ [symbolName] }) afterRemove
      else
        afterRemove ++ [{ moduleSpecifier := toModule, namedImports := [symbolName] }]
    ({ sf with imports := imports' },
     true,
     [{ file := sf.path,
        description := symbolName ++ ": \x27" ++ fromModule ++ "\x27 → \x27" ++ toModule ++ "\x27",
        before := none, after := none }],
     [])

/-- `moveImport`. -/
def moveImport (sourceFiles : List SFile) (symbolName fromModule toModule : String)
    (ctx : MigrationContext) (w : World) : List Change × List SFile × World :=
  let (cs, _, mem, w') := runPerFile (movePerFile symbolName fromModule toModule) ctx sourceFiles w
  (cs, mem, w')

/-- Per-file body of `removeObsoleteImport`. -/
def removeObsPerFile (moduleName symbolName : String) (sf : SFile) :
    SFile × Bool × List Change × List Warning :=
  match sf.imports.find? (importBinds moduleName symbolName) with
  | none => (sf, false, [], [])
  | some imp =>
    ({ sf with imports := removeSymbolFromImports moduleName symbolName sf.imports imp },
     true,
     [{ file := sf.path,
        description := "Removed obsolete import \x27" ++ symbolName ++ "\x27 from \x27" ++ moduleName ++ "\x27",
        before := none, after := none }],
     [{ file := sf.path,
        message := "\x27" ++ symbolName ++ "\x27 was removed from \x27" ++ moduleName ++ "\x27. Check usages manually.",
        line := none }])

/-- `removeObsoleteImport`. -/
def removeObsoleteImport (sourceFiles : List SFile) (moduleName symbolName : String)
    (ctx : MigrationContext) (w : World) :
    List Change × List Warning × List SFile × World :=
  runPerFile (removeObsPerFile moduleName symbolName) ctx sourceFiles w

/-- Rewrite the first object-literal member satisfying `p` (the mutated
`getProperty` node). -/
def modifyFirstProp (p : ObjPropM → Bool) (f : ObjPropM → ObjPropM) :
    List ObjPropM → List ObjPropM
  | [] => []
  | q :: rest => if p q then f q :: rest else q :: modifyFirstProp p f rest

/-- One array-valued decorator property of `removeFromNgModuleArrays`: bare
identifier elements matching the symbol are removed, one change each; call
expression elements are intentionally left untouched. -/
def removeFromArrayProp (symbolName decName arrayProp path : String)
    (elems : List ArrElemM) : List ArrElemM × List Change :=
  let removed := elems.filter (fun el =>
    match el with
    | .identElem t => t == symbolName
    | _ => false)
  (elems.filter (fun el =>
     match el with
     | .identElem t => !(t == symbolName)
     | _ => true),
   removed.map (fun _ =>
     { file := path,
       description := "Removed \x27" ++ symbolName ++ "\x27 from @" ++ decName ++ " " ++ arrayProp ++ "[]",
       before := none, after := none }))

/-- One decorator of `removeFromNgModuleArrays`: only `@NgModule` and
`@Component` object-literal arguments, properties `imports`, `declarations`,
`exports`. -/
def removeNgArraysDecorator (symbolName path : String) (dec : DecoratorM) :
    DecoratorM × List Change :=
  if !(dec.name == "NgModule") && !(dec.name == "Component") then (dec, [])
  else
    match dec.args with
    | [] => (dec, [])
    | arg0 :: restArgs =>
      match arg0 with
      | .otherArg t => (DecoratorM.mk dec.name (.otherArg t :: restArgs), [])
      | .objectLit props =>
        let step := fun (acc : List ObjPropM × List Change) (arrayProp : String) =>
          let hit := acc.1.find? (fun p => p.name == arrayProp)
          match hit with
          | none => acc
          | some p =>
            if !(p.kind == PropKindM.propertyAssignment) then acc
            else
              match p.value with
              | .textVal _ => acc
              | .arrayVal elems =>
                let (elems', cs) := removeFromArrayProp symbolName dec.name arrayProp path elems
                (modifyFirstProp (fun q => q.name == arrayProp)
                   (fun q => { q with value := PropValM.arrayVal elems' }) acc.1,
                 acc.2 ++ cs)
        let (props', cs) := ["imports", "declarations", "exports"].foldl step (props, [])
        (DecoratorM.mk dec.name (.objectLit props' :: restArgs), cs)

/-- Per-file body of `removeFromNgModuleArrays`. -/
def removeNgArraysPerFile (symbolName : String) (sf : SFile) :
    SFile × Bool × List Change × List Warning :=
  let processed : List (ClassM × List Change) := sf.classes.map (fun cls =>
    let decs : List (DecoratorM × List Change) :=
      cls.decorators.map (removeNgArraysDecorator symbolName sf.path)
    ({ cls with decorators := decs.map (·.1) }, (decs.map (·.2)).flatten))
  let cs := (processed.map (·.2)).flatten
  ({ sf with classes := processed.map (·.1) }, !cs.isEmpty, cs, [])

/-- `removeFromNgModuleArrays`. -/
def removeFromNgModuleArrays (sourceFiles : List SFile) (symbolName : String)
    (ctx : MigrationContext) (w : World) : List Change × List SFile × World :=
  let (cs, _, mem, w') := runPerFile (removeNgArraysPerFile symbolName) ctx sourceFiles w
  (cs, mem, w')

/-- Sections 1–2 of `migrateComponentFactoryResolver` on one class: remove
constructor parameters and fields whose declared type is
`ComponentFactoryResolver` (a warning per removed parameter). -/
def cfrClass (path : String) (cls : ClassM) : ClassM × Bool × List Warning :=
  let ctorResults : List (CtorM × Bool × List Warning) := cls.ctors.map (fun ctor =>
    let removed := ctor.params.filter (fun p => p.typeText == some "ComponentFactoryResolver")
    (CtorM.mk (ctor.params.filter (fun p => !(p.typeText == some "ComponentFactoryResolver"))),
     !removed.isEmpty,
     removed.map (fun _ =>
       { file := path,
         message := "Removed ComponentFactoryResolver constructor param in " ++
           (cls.name.getD "anonymous") ++ ". Verify resolveComponentFactory() usages are migrated.",
         line := none })))
  let propsChanged := cls.properties.any (fun p => p.typeText == some "ComponentFactoryResolver")
  ({ cls with ctors := ctorResults.map (·.1),
              properties := cls.properties.filter (fun p => !(p.typeText == some "ComponentFactoryResolver")) },
   ctorResults.any (·.2.1) || propsChanged,
   (ctorResults.map (·.2.2)).flatten)

/-- Section 3 of `migrateComponentFactoryResolver`: a warning for every
one-argument `*.resolveComponentFactory(X)` call descendant. -/
def resolveScanWarnings (path : String) (calls : List CExpr) : List Warning :=
  calls.filterMap (fun c =>
    match c with
    | .call (.propAccess _ "resolveComponentFactory") [arg] =>
      some { file := path,
             message := "Found resolveComponentFactory(" ++ cexprText arg ++
               ") — replace vcr.createComponent(factory) with vcr.createComponent(" ++
               cexprText arg ++ ") manually or check auto-migration below.",
             line := none }
    | _ => none)

/-- Section 4 of `migrateComponentFactoryResolver`: rewrite
`*.createComponent(*.resolveComponentFactory(X), ...)` so the first argument
becomes `X` (only the exact directly-nested one-argument shape), in document
order. -/
def inlineCC (path : String) : CExpr → CExpr × List Change
  | .call (.propAccess fo "createComponent") (a0 :: rest) =>
    (match a0 with
     | .call (.propAccess _ "resolveComponentFactory") [inner] =>
       let (fo', c1) := inlineCC path fo
       let (rest', c2) := inlineCCList path rest
       (.call (.propAccess fo' "createComponent") (inner :: rest'),
        { file := path,
          description := "createComponent(resolver.resolveComponentFactory(X)) → createComponent(X)",
          before := none, after := none } :: (c1 ++ c2))
     | _ =>
       let (fo', c1) := inlineCC path fo
       let (a0', c0) := inlineCC path a0
       let (rest', c2) := inlineCCList path rest
       (.call (.propAccess fo' "createComponent") (a0' :: rest'), c1 ++ (c0 ++ c2)))
  | .call f args =>
    let (f', c1) := inlineCC path f
    let (args', c2) := inlineCCList path args
    (.call f' args', c1 ++ c2)
  | .propAccess o n =>
    let (o', cs) := inlineCC path o
    (.propAccess o' n, cs)
  | .identE t => (.identE t, [])
  | .litE t => (.litE t, [])
where
  inlineCCList (path : String) : List CExpr → List CExpr × List Change
  | [] => ([], [])
  | e :: rest =>
    let (e', c1) := inlineCC path e
    let (rest', c2) := inlineCCList path rest
    (e' :: rest', c1 ++ c2)

/-- Per-file body of `migrateComponentFactoryResolver`. -/
def cfrPerFile (sf : SFile) : SFile × Bool × List Change × List Warning :=
  let classResults := sf.classes.map (cfrClass sf.path)
  let scanWarnings := resolveScanWarnings sf.path (fileCallDesc sf)
  let inlinedTop := sf.topExprs.map (inlineCC sf.path)
  let inlinedBin : List (BinM × List Change) := sf.binaryExprs.map (fun b =>
    let (l', cs) := inlineCC sf.path b.left
    (BinM.mk l', cs))
  let inlineChanges := (inlinedTop.map (·.2)).flatten ++ (inlinedBin.map (·.2)).flatten
  ({ sf with classes := classResults.map (·.1),
             topExprs := inlinedTop.map (·.1),
             binaryExprs := inlinedBin.map (·.1) },
   classResults.any (·.2.1) || !inlineChanges.isEmpty,
   inlineChanges,
   (classResults.map (·.2.2)).flatten ++ scanWarnings)

/-- `migrateComponentFactoryResolver`. -/
def migrateComponentFactoryResolver (sourceFiles : List SFile)
    (ctx : MigrationContext) (w : World) :
    List Change × List Warning × List SFile × World :=
  runPerFile cfrPerFile ctx sourceFiles w

/-- Per-file body of `migrateCanLoadToCanMatch`: only the first
`@angular/router` import binding `CanLoad` is rewritten, then identifier
usages. -/
def canLoadPerFile (sf : SFile) : SFile × Bool × List Change × List Warning :=
  match sf.imports.find? (importBinds "@angular/router" "CanLoad") with
  | none => (sf, false, [], [])
  | some _ =>
    ({ sf with
        imports := modifyFirstImport (importBinds "@angular/router" "CanLoad")
          (fun imp =>
            ImportDeclM.mk imp.moduleSpecifier
              (imp.namedImports.map (fun n => if n == "CanLoad" then "CanMatch" else n)))
          sf.imports,
        bodyIdents := sf.bodyIdents.map (renameIdent "CanLoad" "CanMatch") },
     true,
     [{ file := sf.path,
        description := "CanLoad → CanMatch (removed in Angular 17)",
        before := none, after := none }],
     [])

/-- `migrateCanLoadToCanMatch`. -/
def migrateCanLoadToCanMatch (sourceFiles : List SFile) (ctx : MigrationContext)
    (w : World) : List Change × List SFile × World :=
  let (cs, _, mem, w') := runPerFile canLoadPerFile ctx sourceFiles w
  (cs, mem, w')

/-- `removeBrowserModuleWithServerTransition` rewrite on one expression:
`BrowserModule.withServerTransition(...)` becomes `BrowserModule`. -/
def removeWST (path : String) : CExpr → CExpr × List Change
  | .call (.propAccess obj "withServerTransition") args =>
    if cexprText obj == "BrowserModule" then
      (.identE "BrowserModule",
       [{ file := path,
          description := "BrowserModule.withServerTransition() → BrowserModule (removed in Angular 18)",
          before := none, after := none }])
    else
      let (obj', c1) := removeWST path obj
      let (args', c2) := removeWSTList path args
      (.call (.propAccess obj' "withServerTransition") args', c1 ++ c2)
  | .call f args =>
    let (f', c1) := removeWST path f
    let (args', c2) := removeWSTList path args
    (.call f' args', c1 ++ c2)
  | .propAccess o n =>
    let (o', cs) := removeWST path o
    (.propAccess o' n, cs)
  | .identE t => (.identE t, [])
  | .litE t => (.litE t, [])
where
  removeWSTList (path : String) : List CExpr → List CExpr × List Change
  | [] => ([], [])
  | e :: rest =>
    let (e', c1) := removeWST path e
    let (rest', c2) := removeWSTList path rest
    (e' :: rest', c1 ++ c2)

/-- Per-file body of `removeBrowserModuleWithServerTransition`. -/
def wstPerFile (sf : SFile) : SFile × Bool × List Change × List Warning :=
  let top := sf.topExprs.map (removeWST sf.path)
  let bins : List (BinM × List Change) := sf.binaryExprs.map (fun b =>
    let (l', cs) := removeWST sf.path b.left
    (BinM.mk l', cs))
  let cs := (top.map (·.2)).flatten ++ (bins.map (·.2)).flatten
  ({ sf with topExprs := top.map (·.1), binaryExprs := bins.map (·.1) },
   !cs.isEmpty, cs, [])

/-- `removeBrowserModuleWithServerTransition`. -/
def removeBrowserModuleWithServerTransition (sourceFiles : List SFile)
    (ctx : MigrationContext) (w : World) : List Change × List SFile × World :=
  let (cs, _, mem, w') := runPerFile wstPerFile ctx sourceFiles w
  (cs, mem, w')

/-- `ensureModuleWithProvidersGeneric`: read-only scan, a warning per bare
`ModuleWithProviders` type reference. -/
def ensureModuleWithProvidersGeneric (sourceFiles : List SFile) :
    List Change × List Warning :=
  ([], (sourceFiles.map (fun sf =>
    sf.typeRefs.filterMap (fun r =>
      if r.text == "ModuleWithProviders" && r.typeArgCount == 0 then
        some { file := sf.path,
               message := "ModuleWithProviders is missing a generic type parameter. Add ModuleWithProviders<YourModule>",
               line := (none : Option Nat) }
      else none))).flatten)

/-- The decorators targeted by `addStandaloneFalse`. -/
def standaloneDecoratorNames : List String := ["Component", "Directive", "Pipe"]

/-- `addStandaloneFalse` on one decorator: insert `standalone: false` as the
first property of the object-literal argument unless a property assignment of
that name already exists. -/
def standaloneDecorator (clsName : Option String) (path : String) (dec : DecoratorM) :
    DecoratorM × List Change :=
  if !(standaloneDecoratorNames.contains dec.name) then (dec, [])
  else
    match dec.args with
    | [] => (dec, [])
    | arg0 :: restArgs =>
      match arg0 with
      | .otherArg t => (DecoratorM.mk dec.name (.otherArg t :: restArgs), [])
      | .objectLit props =>
        let hasStandalone := props.any (fun p =>
          p.kind == PropKindM.propertyAssignment && p.name == "standalone")
        if hasStandalone then (DecoratorM.mk dec.name (.objectLit props :: restArgs), [])
        else
          (DecoratorM.mk dec.name
            (.objectLit ({ kind := PropKindM.propertyAssignment, name := "standalone",
                           value := PropValM.textVal "false" } :: props) :: restArgs),
           [{ file := path,
              description := "@" ++ dec.name ++ "(" ++ clsName.getD "" ++
                "): added standalone: false (Angular 19 default changed to true)",
              before := none, after := none }])

/-- Per-file body of `addStandaloneFalse`. -/
def standalonePerFile (sf : SFile) : SFile × Bool × List Change × List Warning :=
  let processed : List (ClassM × List Change) := sf.classes.map (fun cls =>
    let decs : List (DecoratorM × List Change) :=
      cls.decorators.map (standaloneDecorator cls.name sf.path)
    ({ cls with decorators := decs.map (·.1) }, (decs.map (·.2)).flatten))
  let cs := (processed.map (·.2)).flatten
  ({ sf with classes := processed.map (·.1) }, !cs.isEmpty, cs, [])

/-- `addStandaloneFalse`. -/
def addStandaloneFalse (sourceFiles : List SFile) (ctx : MigrationContext)
    (w : World) : List Change × List SFile × World :=
  let (cs, _, mem, w') := runPerFile standalonePerFile ctx sourceFiles w
  (cs, mem, w')

/-- The zone.js deep-import regexes of `fixZoneJsImports`, expanded to their
finite language: each `(['"])...\1` pattern matches exactly the two
quote-delimited literals. -/
def zoneReplacements : List (String × String) :=
  [ ("\x27zone.js/dist/zone\x27", "\x27zone.js\x27")
  , ("\"zone.js/dist/zone\"", "\"zone.js\"")
  , ("\x27zone.js/dist/zone-testing\x27", "\x27zone.js/testing\x27")
  , ("\"zone.js/dist/zone-testing\"", "\"zone.js/testing\"")
  , ("\x27zone.js/bundles/zone-testing.js\x27", "\x27zone.js/testing\x27")
  , ("\"zone.js/bundles/zone-testing.js\"", "\"zone.js/testing\"")
  , ("\x27zone.js/dist/long-stack-trace-zone\x27", "\x27zone.js/plugins/long-stack-trace-zone\x27")
  , ("\"zone.js/dist/long-stack-trace-zone\"", "\"zone.js/plugins/long-stack-trace-zone\"")
  , ("\x27zone.js/dist/async-test\x27", "\x27zone.js/testing\x27")
  , ("\"zone.js/dist/async-test\"", "\"zone.js/testing\"")
  , ("\x27zone.js/dist/fake-async-test\x27", "\x27zone.js/testing\x27")
  , ("\"zone.js/dist/fake-async-test\"", "\"zone.js/testing\"") ]

/-- JS `String.prototype.replace` with a global plain pattern: rewrite every
non-overlapping occurrence, scanning left to right (the fuel, the text
length, bounds the scan steps). -/
def replaceAllSub (s pat rep : String) : String :=
  if pat == "" then s
  else String.mk (replaceAllSub.go pat.toList rep.toList s.toList.length s.toList)
where
  go (pat rep : List Char) : Nat → List Char → List Char
  | _, [] => []
  | 0, l => l
  | fuel+1, c :: rest =>
    if pat.isPrefixOf (c :: rest) then
      rep ++ go pat rep fuel ((c :: rest).drop pat.length)
    else c :: go pat rep fuel rest

/-- Apply the ordered replacement list to one piece of text, with the
per-pattern changed flag. -/
def applyReps (reps : List (String × String)) (content : String) : String × Bool :=
  reps.foldl
    (fun acc r =>
      let nc := replaceAllSub acc.1 r.1 r.2
      if nc == acc.1 then acc else (nc, true))
    (content, false)

/-- The deep-path map on a bare module-specifier value: in the file text a
specifier stands quote-delimited, so the `([\x27"])...\1` regexes rewrite
exactly the specifiers equal to a deep path. -/
def zoneSpecMap : List (String × String) :=
  [ ("zone.js/dist/zone", "zone.js")
  , ("zone.js/dist/zone-testing", "zone.js/testing")
  , ("zone.js/bundles/zone-testing.js", "zone.js/testing")
  , ("zone.js/dist/long-stack-trace-zone", "zone.js/plugins/long-stack-trace-zone")
  , ("zone.js/dist/async-test", "zone.js/testing")
  , ("zone.js/dist/fake-async-test", "zone.js/testing") ]

/-- The zone replacement on one module specifier, with the changed flag. -/
def zoneFixSpec (m : String) : String × Bool :=
  match zoneSpecMap.find? (fun p => p.1 == m) with
  | some p => (p.2, true)
  | none => (m, false)

/-- The zone text replacement over one expression tree: the regexes match
only quote-delimited occurrences, that is inside string-literal source text,
so the structural image of the content replace rewrites the literal texts. -/
def zoneFixExpr : CExpr → CExpr × Bool
  | .identE t => (.identE t, false)
  | .litE t =>
    let r := applyReps zoneReplacements t
    (.litE r.1, r.2)
  | .propAccess o n =>
    let r := zoneFixExpr o
    (.propAccess r.1 n, r.2)
  | .call f args =>
    let rf := zoneFixExpr f
    let ra := zoneFixExprList args
    (.call rf.1 ra.1, rf.2 || ra.2)
where
  zoneFixExprList : List CExpr → List CExpr × Bool
  | [] => ([], false)
  | e :: rest =>
    let re := zoneFixExpr e
    let rr := zoneFixExprList rest
    (re.1 :: rr.1, re.2 || rr.2)

/-- The glob `**/\x7bpolyfills,test,setup-jest,jest-setup,test-setup\x7d.ts`
outside node_modules and dist: candidate files are TypeScript files of the
project directory, so they are also loaded by `createTsProject`. -/
def zoneCandidate (path : String) : Bool :=
  (["/polyfills.ts", "/test.ts", "/setup-jest.ts", "/jest-setup.ts",
    "/test-setup.ts"].any (fun suf => suf.toList.isSuffixOf path.toList)) &&
  !(strContains path "node_modules") && !(strContains path "/dist/")

/-- The content replace of `fixZoneJsImports` on one candidate file, as its
structural image: rewrite the quote-delimited occurrences the modelled
projections carry — import module specifiers and string-literal texts — with
the file changed flag. -/
def fixZonePerFile (sf : SFile) : SFile × Bool :=
  let imps := sf.imports.map (fun imp =>
    let r := zoneFixSpec imp.moduleSpecifier
    (ImportDeclM.mk r.1 imp.namedImports, r.2))
  let tops := sf.topExprs.map zoneFixExpr
  let bins := sf.binaryExprs.map (fun b =>
    let r := zoneFixExpr b.left
    (BinM.mk r.1, r.2))
  ({ sf with imports := imps.map (fun pr => pr.1),
             topExprs := tops.map (fun pr => pr.1),
             binaryExprs := bins.map (fun pr => pr.1) },
   imps.any (fun pr => pr.2) || tops.any (fun pr => pr.2) ||
     bins.any (fun pr => pr.2))

/-- `fixZoneJsImports`: the glob candidates are the project TypeScript files
with a polyfills/test-setup name; each candidate is read from disk, the
replacements applied, and the rewritten file written back (gated on the
preview flag) — the subsequent `createTsProject` re-reads these files, so an
applied run feeds the rewritten text to the TypeScript scans. -/
def fixZoneJsImports (ctx : MigrationContext) (w : World) : List Change × World :=
  let processed := w.tsFiles.map (fun sf =>
    if zoneCandidate sf.path then fixZonePerFile sf else (sf, false))
  let changes := processed.filterMap (fun pr =>
    if pr.2 then
      some { file := pr.1.path,
             description := "Fixed zone.js deep imports → shallow imports",
             before := (none : Option String), after := (none : Option String) }
    else none)
  (changes,
   if ctx.dryRun then w
   else { w with tsFiles := processed.map (fun pr => pr.1) })

/-- The changes computed by `fixZoneJsImports`, as a function of the project
TypeScript files alone. -/
def fixZoneChanges (tsFiles : List SFile) : List Change :=
  (tsFiles.map (fun sf =>
    if zoneCandidate sf.path then fixZonePerFile sf else (sf, false))).filterMap (fun pr =>
    if pr.2 then
      some { file := pr.1.path,
             description := "Fixed zone.js deep imports → shallow imports",
             before := (none : Option String), after := (none : Option String) }
    else none)

/-- `migrateAsyncToWaitForAsync` delegates to `renameNamedImport`. -/
def migrateAsyncToWaitForAsync (sourceFiles : List SFile) (ctx : MigrationContext)
    (w : World) : List Change × List SFile × World :=
  renameNamedImport sourceFiles "@angular/core/testing" "async" "waitForAsync" ctx w

/-- Modelled from the spec: `removeDominoSetup` is exported from the codemods
module and called by the v16→v17 step, but its definition is not among the
available sources.  Per the spec (§4.1 failure policy, §4.2, §5) it is a
rewrite primitive whose pattern-absent case is a silent no-op and whose
persistence is suppressed in preview mode; it is modelled as the
pattern-absent case: no changes, no tree mutation, no writes. -/
def removeDominoSetup (sourceFiles : List SFile) (_ctx : MigrationContext)
    (w : World) : List Change × List SFile × World :=
  ([], sourceFiles, w)

/-! ## Migration steps -/

/-- `src/types.ts` — `MigrationStep` (`from`/`to` are spelled
`fromVersion`/`toVersion`, `from` being reserved in Lean). -/
structure StepImpl where
  fromVersion : Int
  toVersion : Int
  name : String
  run : MigrationContext → World → Except String (MigrationResult × World)

/-- Version map of the v15→v16 step. -/
def pkgMap15to16 : List (String × String) :=
  [ ("@angular/animations", "^16.2.0"), ("@angular/cdk", "^16.2.0")
  , ("@angular/cli", "^16.2.0"), ("@angular/common", "^16.2.0")
  , ("@angular/compiler", "^16.2.0"), ("@angular/compiler-cli", "^16.2.0")
  , ("@angular/core", "^16.2.0"), ("@angular/elements", "^16.2.0")
  , ("@angular/forms", "^16.2.0"), ("@angular/language-service", "^16.2.0")
  , ("@angular/material", "^16.2.0"), ("@angular/platform-browser", "^16.2.0")
  , ("@angular/platform-browser-dynamic", "^16.2.0"), ("@angular/platform-server", "^16.2.0")
  , ("@angular/router", "^16.2.0"), ("@angular/service-worker", "^16.2.0")
  , ("@angular-devkit/build-angular", "^16.2.0"), ("@angular-devkit/core", "^16.2.0")
  , ("@angular-devkit/schematics", "^16.2.0"), ("typescript", "~5.1.0")
  , ("zone.js", "~0.13.0"), ("rxjs", "~7.8.0") ]

/-- The `entryComponents` decorator-text scan shared in shape by the v15→v16
and v16→v17 steps (the message differs). -/
def entryComponentsScan (message : Option String → String) (files : List SFile) :
    List Warning :=
  (files.map (fun sf =>
    (sf.classes.map (fun cls =>
      cls.decorators.filterMap (fun dec =>
        if dec.name == "NgModule" then
          match dec.args with
          | [] => none
          | arg0 :: _ =>
            if strContains (decArgText arg0) "entryComponents" then
              some { file := sf.path, message := message cls.name, line := (none : Option Nat) }
            else none
        else none))).flatten)).flatten

/-- `src/migrations/v15-to-v16.ts` — step body.  The `createTsProject`
try/catch early-return path needs an unparsable tsconfig and is not reachable
in the model. -/
def v15ToV16run (ctx : MigrationContext) (w : World) :
    Except String (MigrationResult × World) := do
  let (pkgChanges, w) ← updatePackageVersions ctx pkgMap15to16 w
  let mem0 := getSourceFiles (createTsProject w)
  let (tsC, mem, w) := moveImport mem0 "TransferState" "@angular/platform-browser" "@angular/core" ctx w
  let (mkC, mem, w) := moveImport mem "makeStateKey" "@angular/platform-browser" "@angular/core" ctx w
  let (skC, mem, w) := moveImport mem "StateKey" "@angular/platform-browser" "@angular/core" ctx w
  let (xhrC, mem, w) := moveImport mem "XhrFactory" "@angular/common/http" "@angular/common" ctx w
  let (btsmC, _btsmW, mem, w) := removeObsoleteImport mem "@angular/platform-browser" "BrowserTransferStateModule" ctx w
  let (btsmArrC, mem, w) := removeFromNgModuleArrays mem "BrowserTransferStateModule" ctx w
  let (stsmC, stsmW, mem, w) := removeObsoleteImport mem "@angular/platform-server" "ServerTransferStateModule" ctx w
  let (stsmArrC, mem, w) := removeFromNgModuleArrays mem "ServerTransferStateModule" ctx w
  let (rmfC, rmfW, mem, w) := removeObsoleteImport mem "@angular/platform-server" "renderModuleFactory" ctx w
  let (afecC, _afecW, mem, w) := removeObsoleteImport mem "@angular/core" "ANALYZE_FOR_ENTRY_COMPONENTS" ctx w
  let (riC, riW, mem, w) := removeObsoleteImport mem "@angular/core" "ReflectiveInjector" ctx w
  let entryW := entryComponentsScan
    (fun n => (n.getD "NgModule") ++ ": \x27entryComponents\x27 is removed in Angular 16. Remove it from the decorator — Ivy handles dynamic components automatically.")
    mem
  let (_, mwpW) := ensureModuleWithProvidersGeneric mem
  let canLoadW := mem.filterMap (fun sf =>
    if sf.imports.any (importBinds "@angular/router" "CanLoad") then
      some { file := sf.path,
             message := "CanLoad is deprecated (Angular 15) and removed in Angular 17. Will be migrated to CanMatch automatically in the next step.",
             line := (none : Option Nat) }
    else none)
  pure
    ({ step := "Angular 15 → 16",
       changes := pkgChanges ++ tsC ++ mkC ++ skC ++ xhrC ++ btsmC ++ btsmArrC ++
         stsmC ++ stsmArrC ++ rmfC ++ afecC ++ riC,
       warnings :=
         stsmW.map (fun wn => { wn with message := "ServerTransferStateModule removed. Remove from NgModule imports[], TransferState is now injected automatically." }) ++
         rmfW.map (fun wn => { wn with message := "renderModuleFactory removed. Use renderModule() from \x27@angular/platform-server\x27 instead." }) ++
         riW.map (fun wn => { wn with message := "ReflectiveInjector removed. Replace with Injector.create(\x7b providers: [...] \x7d)." }) ++
         entryW ++ mwpW ++ canLoadW ++
         [{ file := "angular.json",
            message := "[Angular 16] CSS keyframe animation names are now scoped per component. If you reference keyframe names globally, move them to a global stylesheet or use ViewEncapsulation.None.",
            line := none }],
       errors := [] }, w)

/-- The v15→v16 step descriptor. -/
def v15ToV16 : StepImpl :=
  { fromVersion := 15, toVersion := 16, name := "Angular 15 → 16", run := v15ToV16run }

/-- Version map of the v16→v17 step. -/
def pkgMap16to17 : List (String × String) :=
  [ ("@angular/animations", "^17.3.0"), ("@angular/cdk", "^17.3.0")
  , ("@angular/cli", "^17.3.0"), ("@angular/common", "^17.3.0")
  , ("@angular/compiler", "^17.3.0"), ("@angular/compiler-cli", "^17.3.0")
  , ("@angular/core", "^17.3.0"), ("@angular/elements", "^17.3.0")
  , ("@angular/forms", "^17.3.0"), ("@angular/language-service", "^17.3.0")
  , ("@angular/material", "^17.3.0"), ("@angular/platform-browser", "^17.3.0")
  , ("@angular/platform-browser-dynamic", "^17.3.0"), ("@angular/platform-server", "^17.3.0")
  , ("@angular/router", "^17.3.0"), ("@angular/service-worker", "^17.3.0")
  , ("@angular-devkit/build-angular", "^17.3.0"), ("@angular-devkit/core", "^17.3.0")
  , ("@angular-devkit/schematics", "^17.3.0"), ("typescript", "~5.2.0")
  , ("zone.js", "~0.14.0") ]

/-- Router properties whose direct assignment is detected by the v16→v17
step. -/
def movedRouterProps : List String :=
  [ "urlHandlingStrategy", "canceledNavigationResolution", "paramsInheritanceStrategy"
  , "titleStrategy", "urlUpdateStrategy", "malformedUriErrorHandler" ]

/-- `src/migrations/v16-to-v17.ts` — step body. -/
def v16ToV17run (ctx : MigrationContext) (w : World) :
    Except String (MigrationResult × World) := do
  let (pkgChanges, w) ← updatePackageVersions ctx pkgMap16to17 w
  let (builderC, w) := migrateBrowserBuilderToApplication ctx w
  let (defaultProjectC, w) := removeDefaultProject ctx w
  let (zoneC, w) := fixZoneJsImports ctx w
  let (ssrPkgC, w) ← replacePackageDependency ctx "@nguniversal/express-engine" "@angular/ssr" "^17.3.0" w
  let mem0 := getSourceFiles (createTsProject w)
  let (routerLinkC, mem, w) := renameNamedImport mem0 "@angular/router" "RouterLinkWithHref" "RouterLink" ctx w
  let (ngExpressC, mem, w) := moveImport mem "ngExpressEngine" "@nguniversal/express-engine" "@angular/ssr" ctx w
  let (commonEngineC, mem, w) := moveImport mem "CommonEngine" "@nguniversal/express-engine" "@angular/ssr/node" ctx w
  let (dominoC, mem, w) := removeDominoSetup mem ctx w
  let (canLoadC, mem, w) := migrateCanLoadToCanMatch mem ctx w
  let (cfrC, cfrW, mem, w) := migrateComponentFactoryResolver mem ctx w
  let (cfC1, _cfW1, mem, w) := removeObsoleteImport mem "@angular/core" "ComponentFactory" ctx w
  let (cfC2, _cfW2, mem, w) := removeObsoleteImport mem "@angular/core" "ComponentFactoryResolver" ctx w
  let (strC, strW, mem, w) := removeObsoleteImport mem "@angular/router/testing" "setupTestingRouter" ctx w
  let (noDomC, noDomW, mem, w) := removeObsoleteImport mem "@angular/platform-browser" "withNoDomReuse" ctx w
  let mutateW := (mem.map (fun sf =>
    (fileCallDesc sf).filterMap (fun c =>
      match c with
      | .call (.propAccess o "mutate") args =>
        some { file := sf.path,
               message := "signal.mutate() removed in Angular 17. Replace with signal.update(val => \x7b ...val, changedProp \x7d). Found: " ++
                 (cexprText (.call (.propAccess o "mutate") args)).take 80,
               line := (none : Option Nat) }
      | _ => none))).flatten
  let routerPropW := (mem.map (fun sf =>
    sf.binaryExprs.filterMap (fun b =>
      match b.left with
      | .propAccess _ n =>
        if movedRouterProps.contains n then
          some { file := sf.path,
                 message := "router." ++ n ++ " = ... is no longer supported in Angular 17. Configure via provideRouter([routes], with" ++
                   jsCapitalize n ++ "(...)) or RouterModule.forRoot config.",
                 line := (none : Option Nat) }
        else none
      | _ => none))).flatten
  let entryW := entryComponentsScan
    (fun n => (n.getD "undefined") ++ ": entryComponents must be removed before Angular 17.")
    mem
  pure
    ({ step := "Angular 16 → 17",
       changes := pkgChanges ++ builderC ++ defaultProjectC ++ zoneC ++ ssrPkgC ++
         routerLinkC ++ ngExpressC ++ commonEngineC ++ dominoC ++ canLoadC ++ cfrC ++
         cfC1 ++ cfC2 ++ strC ++ noDomC,
       warnings := cfrW ++
         strW.map (fun wn => { wn with message := "setupTestingRouter() removed. Use RouterModule.forRoot([]) or provideRouter([]) in TestBed.configureTestingModule instead." }) ++
         noDomW.map (fun wn => { wn with message := "withNoDomReuse() removed. Use the ngSkipHydration attribute on the <app-root> tag instead." }) ++
         mutateW ++ routerPropW ++ entryW ++
         [{ file := "angular.json",
            message := "[Angular 17] REMOVE_STYLES_ON_COMPONENT_DESTROY now defaults to true. Component styles are removed on destroy. If your app relies on styles persisting, add \x7b provide: REMOVE_STYLES_ON_COMPONENT_DESTROY, useValue: false \x7d to providers.",
            line := none },
          { file := "angular.json",
            message := "[Angular 17] NgSwitch now uses strict equality (===) instead of loose equality (==). Review switch cases that relied on type coercion.",
            line := none },
          { file := "angular.json",
            message := "[Angular 17] Router absolute redirects are now non-terminal (processing continues after redirect). Check route configs for potential infinite redirect loops.",
            line := none }],
       errors := [] }, w)

/-- The v16→v17 step descriptor. -/
def v16ToV17 : StepImpl :=
  { fromVersion := 16, toVersion := 17, name := "Angular 16 → 17", run := v16ToV17run }

/-- Version map of the v17→v18 step. -/
def pkgMap17to18 : List (String × String) :=
  [ ("@angular/animations", "^18.2.0"), ("@angular/cdk", "^18.2.0")
  , ("@angular/cli", "^18.2.0"), ("@angular/common", "^18.2.0")
  , ("@angular/compiler", "^18.2.0"), ("@angular/compiler-cli", "^18.2.0")
  , ("@angular/core", "^18.2.0"), ("@angular/elements", "^18.2.0")
  , ("@angular/forms", "^18.2.0"), ("@angular/language-service", "^18.2.0")
  , ("@angular/material", "^18.2.0"), ("@angular/platform-browser", "^18.2.0")
  , ("@angular/platform-browser-dynamic", "^18.2.0"), ("@angular/platform-server", "^18.2.0")
  , ("@angular/router", "^18.2.0"), ("@angular/service-worker", "^18.2.0")
  , ("@angular-devkit/build-angular", "^18.2.0"), ("@angular-devkit/core", "^18.2.0")
  , ("@angular-devkit/schematics", "^18.2.0"), ("typescript", "~5.4.0") ]

/-- `Testability` methods removed in Angular 18. -/
def removedTestabilityMethods : List String :=
  ["increasePendingRequestCount", "decreasePendingRequestCount", "getPendingRequestCount"]

/-- HTTP modules deprecated in Angular 18. -/
def deprecatedHttpModules : List String :=
  ["HttpClientModule", "HttpClientXsrfModule", "HttpClientJsonpModule"]

/-- `src/migrations/v17-to-v18.ts` — step body. -/
def v17ToV18run (ctx : MigrationContext) (w : World) :
    Except String (MigrationResult × World) := do
  let (pkgChanges, w) ← updatePackageVersions ctx pkgMap17to18 w
  let mem0 := getSourceFiles (createTsProject w)
  let (asyncC, mem, w) := migrateAsyncToWaitForAsync mem0 ctx w
  let (uiC, uiW, mem, w) := removeObsoleteImport mem "@angular/common" "isPlatformWorkerUi" ctx w
  let (appC, appW, mem, w) := removeObsoleteImport mem "@angular/common" "isPlatformWorkerApp" ctx w
  let (pdsC, pdsW, mem, w) := removeObsoleteImport mem "@angular/platform-server" "platformDynamicServer" ctx w
  let (rcpC, _rcpW, mem, w) := removeObsoleteImport mem "@angular/platform-browser-dynamic" "RESOURCE_CACHE_PROVIDER" ctx w
  let (_admC, _admW, mem, w) := removeObsoleteImport mem "@angular/animations/browser" "AnimationDriver" ctx w
  let matchesElementW := (mem.map (fun sf =>
    (filePropAccessDesc sf).filterMap (fun c =>
      match c with
      | .propAccess _ "matchesElement" =>
        some { file := sf.path,
               message := "AnimationDriver.matchesElement() removed in Angular 18. Remove this usage.",
               line := (none : Option Nat) }
      | _ => none))).flatten
  let testabilityW := (mem.map (fun sf =>
    (filePropAccessDesc sf).filterMap (fun c =>
      match c with
      | .propAccess _ n =>
        if removedTestabilityMethods.contains n then
          some { file := sf.path,
                 message := "Testability." ++ n ++ "() removed in Angular 18. Remove this call — it has no replacement.",
                 line := (none : Option Nat) }
        else none
      | _ => none))).flatten
  let swUpdateW := (mem.map (fun sf =>
    (filePropAccessDesc sf).filterMap (fun c =>
      match c with
      | .propAccess o n =>
        if (n == "available" || n == "activated") &&
            (strContains (cexprText o).toLower "update" || strContains (cexprText o).toLower "swupdate") then
          some { file := sf.path,
                 message := "Possible SwUpdate." ++ n ++ " usage. This observable was removed in Angular 18 — use swUpdate.versionUpdates observable instead.",
                 line := (none : Option Nat) }
        else none
      | _ => none))).flatten
  let httpW := (mem.map (fun sf =>
    sf.imports.filterMap (fun imp =>
      if imp.moduleSpecifier == "@angular/common/http" then
        let found := imp.namedImports.filter (fun n => deprecatedHttpModules.contains n)
        if !found.isEmpty then
          some { file := sf.path,
                 message := String.intercalate ", " found ++
                   " deprecated in Angular 18. Migrate to provideHttpClient() in your app config/bootstrap. See: https://angular.dev/guide/http/setup",
                 line := (none : Option Nat) }
        else none
      else none))).flatten
  pure
    ({ step := "Angular 17 → 18",
       changes := pkgChanges ++ asyncC ++ uiC ++ appC ++ pdsC ++ rcpC,
       warnings :=
         uiW.map (fun wn => { wn with message := "isPlatformWorkerUi() removed in Angular 18 — the Angular WebWorker platform is discontinued. Remove usages." }) ++
         appW.map (fun wn => { wn with message := "isPlatformWorkerApp() removed in Angular 18 — the Angular WebWorker platform is discontinued. Remove usages." }) ++
         pdsW.map (fun wn => { wn with message := "platformDynamicServer removed. Add import \x27@angular/compiler\x27 before bootstrapping and use platformServer() instead." }) ++
         matchesElementW ++ testabilityW ++ swUpdateW ++ httpW ++
         [{ file := "angular.json",
            message := "[Angular 18] withHttpTransferCache now excludes requests with Authorization headers by default. To include them: provideClientHydration(withHttpTransferCache(\x7b includeRequestsWithAuthHeaders: true \x7d))",
            line := none },
          { file := "angular.json",
            message := "[Angular 18] Infinite change detection loops now throw NG0103 error instead of silently running. Check for components that call markForCheck() unconditionally.",
            line := none },
          { file := "angular.json",
            message := "[Angular 18] Two-way bindings ([(ngModel)], [(value)]) now require writable expressions. Check banana-in-a-box bindings on computed/readonly properties.",
            line := none },
          { file := "angular.json",
            message := "[Angular 18] Router: component providers no longer come from RouterOutlet — only from the route config. If you rely on outlet providers, add them to the route directly.",
            line := none }],
       errors := [] }, w)

/-- The v17→v18 step descriptor. -/
def v17ToV18 : StepImpl :=
  { fromVersion := 17, toVersion := 18, name := "Angular 17 → 18", run := v17ToV18run }

/-- Version map of the v18→v19 step. -/
def pkgMap18to19 : List (String × String) :=
  [ ("@angular/animations", "^19.2.0"), ("@angular/cdk", "^19.2.0")
  , ("@angular/cli", "^19.2.0"), ("@angular/common", "^19.2.0")
  , ("@angular/compiler", "^19.2.0"), ("@angular/compiler-cli", "^19.2.0")
  , ("@angular/core", "^19.2.0"), ("@angular/elements", "^19.2.0")
  , ("@angular/forms", "^19.2.0"), ("@angular/language-service", "^19.2.0")
  , ("@angular/material", "^19.2.0"), ("@angular/platform-browser", "^19.2.0")
  , ("@angular/platform-browser-dynamic", "^19.2.0"), ("@angular/platform-server", "^19.2.0")
  , ("@angular/router", "^19.2.0"), ("@angular/service-worker", "^19.2.0")
  , ("@angular-devkit/build-angular", "^19.2.0"), ("@angular-devkit/core", "^19.2.0")
  , ("@angular-devkit/schematics", "^19.2.0"), ("typescript", "~5.6.0") ]

/-- Legacy Angular Material modules removed in v19. -/
def legacyMaterialModules : List String :=
  [ "MatLegacyButtonModule", "MatLegacyCardModule", "MatLegacyCheckboxModule"
  , "MatLegacyChipsModule", "MatLegacyDialogModule", "MatLegacyFormFieldModule"
  , "MatLegacyInputModule", "MatLegacyListModule", "MatLegacyMenuModule"
  , "MatLegacyProgressBarModule", "MatLegacyProgressSpinnerModule", "MatLegacyRadioModule"
  , "MatLegacySelectModule", "MatLegacySlideToggleModule", "MatLegacySliderModule"
  , "MatLegacySnackBarModule", "MatLegacyTableModule", "MatLegacyTabsModule"
  , "MatLegacyTooltipModule" ]

/-- `src/migrations/v18-to-v19.ts` — step body.  (The changes and warnings
returned by the `KeyValueDiffers` import removal are destructured but never
pushed into the result by the source; the file mutation and save still take
effect.) -/
def v18ToV19run (ctx : MigrationContext) (w : World) :
    Except String (MigrationResult × World) := do
  let (pkgChanges, w) ← updatePackageVersions ctx pkgMap18to19 w
  let mem0 := getSourceFiles (createTsProject w)
  let (pendingTasksC, mem, w) := renameNamedImport mem0 "@angular/core" "ExperimentalPendingTasks" "PendingTasks" ctx w
  let (serverTransitionC, mem, w) := removeBrowserModuleWithServerTransition mem ctx w
  let (_kvdC, _kvdW, mem, w) := removeObsoleteImport mem "@angular/core" "KeyValueDiffers" ctx w
  let factoriesW := (mem.map (fun sf =>
    (filePropAccessDesc sf).filterMap (fun c =>
      match c with
      | .propAccess o "factories" =>
        if strContains (cexprText o).toLower "differ" then
          some { file := sf.path,
                 message := "KeyValueDiffers.factories removed in Angular 19. Use KeyValueDiffer directly via DI.",
                 line := (none : Option Nat) }
        else none
      | _ => none))).flatten
  let errorHandlerW := (mem.map (fun sf =>
    sf.binaryExprs.filterMap (fun b =>
      match b.left with
      | .propAccess o "errorHandler" =>
        if strContains (cexprText o).toLower "router" then
          some { file := sf.path,
                 message := "router.errorHandler = ... removed in Angular 19. Use withNavigationErrorHandler((e) => ...) in provideRouter() or RouterModule.forRoot(routes, \x7b errorHandler: ... \x7d) instead.",
                 line := (none : Option Nat) }
        else none
      | _ => none))).flatten
  let (standaloneC, mem, w) := addStandaloneFalse mem ctx w
  let legacyW := (mem.map (fun sf =>
    sf.imports.filterMap (fun imp =>
      if imp.moduleSpecifier.startsWith "@angular/material" then
        let found := imp.namedImports.filter (fun n => legacyMaterialModules.contains n)
        if !found.isEmpty then
          some { file := sf.path,
                 message := "Legacy Angular Material components removed in v19: " ++
                   String.intercalate ", " found ++
                   ". Replace with MDC-based equivalents (remove \x27Legacy\x27 from the class name).",
                 line := (none : Option Nat) }
        else none
      else none))).flatten
  pure
    ({ step := "Angular 18 → 19",
       changes := pkgChanges ++ pendingTasksC ++ serverTransitionC ++ standaloneC,
       warnings :=
         (if serverTransitionC.length > 0 then
           [{ file := "angular.json",
              message := "BrowserModule.withServerTransition() removed. Replaced with BrowserModule. If you need a stable app ID for SSR, add: \x7b provide: APP_ID, useValue: \x27my-app\x27 \x7d to providers.",
              line := (none : Option Nat) }]
          else []) ++
         factoriesW ++ errorHandlerW ++
         (if standaloneC.length > 0 then
           [{ file := "angular.json",
              message := "[Angular 19] Added standalone: false to " ++ toString standaloneC.length ++
                " component(s)/directive(s)/pipe(s). Angular 19 changed the default to standalone: true. Components with standalone: true that are still in NgModule.declarations should be removed from declarations[].",
              line := (none : Option Nat) }]
          else []) ++
         legacyW ++
         [{ file := "angular.json",
            message := "[Angular 19] Signal effects now run during change detection (not as microtasks). Effects outside change detection will now run during the next CD cycle.",
            line := none },
          { file := "angular.json",
            message := "[Angular 19] [routerLink]=\"null\" now removes the href attribute. Review conditional routerLink bindings that use null/undefined as a \"disabled\" state.",
            line := none },
          { file := "angular.json",
            message := "[Angular 19] Template property reads: this.foo in templates no longer refers to template variables. If you have template variables and class properties with the same name, remove this. prefix.",
            line := none },
          { file := "angular.json",
            message := "[Angular 19] ApplicationRef.tick() errors in TestBed are now rethrown. Wrap expected-to-throw scenarios with expect(() => fixture.detectChanges()).toThrow(), or set rethrowApplicationErrors: false in TestBed.",
            line := none }],
       errors := [] }, w)

/-- The v18→v19 step descriptor. -/
def v18ToV19 : StepImpl :=
  { fromVersion := 18, toVersion := 19, name := "Angular 18 → 19", run := v18ToV19run }

/-! ## `src/migrator.ts` — orchestrator -/

/-- `ALL_STEPS`, statically enumerated in ascending version order. -/
def ALL_STEPS : List StepImpl := [v15ToV16, v16ToV17, v17ToV18, v18ToV19]

/-- `MigratorOptions` (the project path itself is opaque; its existence check
is plain I/O preceding everything modelled). -/
structure MigratorOptions where
  projectPath : String
  fromVersion : Option Int := none
  toVersion : Option Int := none
  dryRun : Bool := false
  skipPackageJson : Bool := false

/-- The step-selection filter of `migrate`:
`ALL_STEPS.filter(s => s.from >= currentVersion && s.to <= toVersion)`. -/
def stepsToRun (currentVersion toVersion : Int) : List StepImpl :=
  ALL_STEPS.filter (fun s => currentVersion ≤ s.fromVersion && s.toVersion ≤ toVersion)

/-- The per-step context built inside the loop of `migrate`. -/
def mkStepCtx (opts : MigratorOptions) (s : StepImpl) : MigrationContext :=
  { projectPath := opts.projectPath, fromVersion := s.fromVersion, toVersion := s.toVersion,
    dryRun := opts.dryRun, skipPackageJson := opts.skipPackageJson }

/-- The `for (const step of stepsToRun)` loop: run each step, catching any
thrown error as a step-level error result, and continue with the next step.
(No modelled step writes before its first possible throw, so the world passed
on after a caught throw is the world the step received.) -/
def runSelected (opts : MigratorOptions) : List StepImpl → World →
    List MigrationResult × World
  | [], w => ([], w)
  | s :: rest, w =>
    match s.run (mkStepCtx opts s) w with
    | .ok (res, w1) =>
      let (rs, w2) := runSelected opts rest w1
      (res :: rs, w2)
    | .error e =>
      let (rs, w2) := runSelected opts rest w
      ({ step := s.name, changes := [], warnings := [],
         errors := [{ file := "migrator", message := e }] } :: rs, w2)

/-- `change.file.replace(projectPath, '').replace(/^[\\/]/, '')`. -/
def shortFile (projectPath file : String) : String :=
  let s := jsReplaceFirst file projectPath ""
  match s.toList with
  | [] => s
  | c :: rest => if c == '/' || c == '\\' then String.mk rest else s

/-- Report lines for one change. -/
def changeLines (projectPath : String) (c : Change) : List String :=
  let sf := shortFile projectPath c.file
  match c.before, c.after with
  | some b, some a =>
    [ "- **" ++ sf ++ "**: " ++ c.description
    , "  - Before: \x60" ++ b ++ "\x60"
    , "  - After: \x60" ++ a ++ "\x60" ]
  | _, _ => ["- **" ++ sf ++ "**: " ++ c.description]

/-- Report lines for one warning. -/
def warningLine (projectPath : String) (wn : Warning) : String :=
  let sf := shortFile projectPath wn.file
  match wn.line with
  | some l => "- **" ++ sf ++ ":" ++ toString l ++ "**: " ++ wn.message
  | none => "- **" ++ sf ++ "**: " ++ wn.message

/-- Report section of one step result. -/
def resultSection (projectPath : String) (r : MigrationResult) : List String :=
  ("## " ++ r.step) :: "" ::
  ((if r.changes.length > 0 then
      ("### Changes applied (" ++ toString r.changes.length ++ ")") :: "" ::
        ((r.changes.map (changeLines projectPath)).flatten ++ [""])
    else
      ["_No automatic changes in this step._", ""]) ++
   (if r.warnings.length > 0 then
      ("### Manual attention required (" ++ toString r.warnings.length ++ ")") :: "" ::
        "> These items were detected but require manual fixes:" :: "" ::
        (r.warnings.map (warningLine projectPath) ++ [""])
    else []) ++
   (if r.errors.length > 0 then
      "### Errors" :: "" ::
        (r.errors.map (fun e => "- **" ++ e.file ++ "**: " ++ e.message) ++ [""])
    else []) ++
   ["---", ""])

/-- The full text of the generated report document (the `Generated:`
timestamp is the oracle input `now`). -/
def reportLines (projectPath : String) (results : List MigrationResult)
    (dryRun : Bool) (now : String) : List String :=
  [ "# Angular Migration Report", ""
  , "Generated: " ++ now
  , "Mode: " ++ (if dryRun then "DRY RUN (no files changed)" else "APPLIED")
  , "", "---", "" ] ++
  (results.map (resultSection projectPath)).flatten

/-- `writeReport`: unconditionally writes `migration-report.md` into the
project directory. -/
def writeReport (projectPath : String) (results : List MigrationResult)
    (dryRun : Bool) (now : String) (w : World) : World :=
  { w with report := some (reportLines projectPath results dryRun now) }

/-- Outcome of one `migrate` call that did not throw. -/
structure MigrateOut where
  world : World
  results : List MigrationResult

/-- `migrate` (`src/migrator.ts`): resolve the current version, select the
steps, early-return on `current ≥ target` or empty selection, run the loop,
write the report.  Console output is dropped; the report timestamp is the
parameter `now`. -/
def migrate (opts : MigratorOptions) (now : String) (w : World) :
    Except String MigrateOut := do
  let currentVersion ←
    match opts.fromVersion with
    | some v => Except.ok v
    | none => detectAngularVersion w
  let toVersion := opts.toVersion.getD 19
  if currentVersion ≥ toVersion then
    return { world := w, results := [] }
  let steps := stepsToRun currentVersion toVersion
  if steps.isEmpty then
    return { world := w, results := [] }
  let (allResults, w1) := runSelected opts steps w
  let w2 := writeReport opts.projectPath allResults opts.dryRun now w1
  return { world := w2, results := allResults }

/-! ## Concrete inputs used by the counterexamples and witnesses -/

/-- A minimal package.json whose only dependency is `typescript` at the
version the v18→v19 step targets. -/
def pkgTs56 : Pkg := { dependencies := some [("typescript", "~5.6.0")] }

/-- Project state for the preview-persistence counterexample: only a
package.json on disk, no report. -/
def c2World : World := { pkg := some pkgTs56 }

/-- Project state for the preview-parity counterexample. -/
def c3World : World := { pkg := some pkgTs56 }

/-- Per-step change counts of a pipeline outcome. -/
def migrateChangeCounts (e : Except String MigrateOut) : Except String (List Nat) :=
  e.map (fun out => out.results.map (fun r => r.changes.length))

/-- A file exhibiting the two-step factory pattern: the factory result is
first assigned to a variable (`const v = a.b.resolveComponentFactory(C)`) and
then consumed in a different expression (`vcr.createComponent(v)`). -/
def c9File (path a b comp varName vcr : String) : SFile :=
  { path := path, imports := [], bodyIdents := [], classes := [],
    topExprs :=
      [ .call (.propAccess (.propAccess (.identE a) b) "resolveComponentFactory") [.identE comp]
      , .call (.propAccess (.identE vcr) "createComponent") [.identE varName] ],
    binaryExprs := [], typeRefs := [] }

/-- The Boolean "the symbol is importable from this module" observation used
by the conservation property (some import of the module binds the symbol). -/
def importableFrom (sf : SFile) (moduleName symbolName : String) : Bool :=
  importHasNamed sf.imports moduleName symbolName

/-- A project directory with no package.json: every step body throws. -/
def noPkgWorld : World := { pkg := none }

/-- Options for an applied 18→19 run. -/
def opts18to19 : MigratorOptions :=
  { projectPath := "/p", fromVersion := some 18, toVersion := some 19,
    dryRun := false, skipPackageJson := false }

/-- Options for an applied 15→19 run. -/
def opts15to19 : MigratorOptions :=
  { projectPath := "/p", fromVersion := some 15, toVersion := some 19,
    dryRun := false, skipPackageJson := false }

/-- Options for a preview (dry-run) 18→19 run. -/
def opts18to19dry : MigratorOptions :=
  { projectPath := "/p", fromVersion := some 18, toVersion := some 19,
    dryRun := true, skipPackageJson := false }

/-- Options for a preview (dry-run) 17→19 run. -/
def opts17to19dry : MigratorOptions :=
  { projectPath := "/p", fromVersion := some 17, toVersion := some 19,
    dryRun := true, skipPackageJson := false }

/-- Options for an applied 17→19 run. -/
def opts17to19app : MigratorOptions :=
  { projectPath := "/p", fromVersion := some 17, toVersion := some 19,
    dryRun := false, skipPackageJson := false }

/-- A preview context for the v17→v18 step. -/
def ctx17to18dry : MigrationContext :=
  { projectPath := "/p", fromVersion := 17, toVersion := 18,
    dryRun := true, skipPackageJson := false }

/-- An applied context for the v17→v18 step. -/
def ctx17to18app : MigrationContext :=
  { projectPath := "/p", fromVersion := 17, toVersion := 18,
    dryRun := false, skipPackageJson := false }

/-- A two-entry version-update map with distinct keys. -/
def c6U : List (String × String) := [("a", "1"), ("b", "2")]

/-- A project whose manifest holds an outdated entry of the first key. -/
def c6W : World := { pkg := some { dependencies := some [("a", "0")] } }

/-- The same project after the version update has been applied. -/
def c6Wdone : World := { pkg := some { dependencies := some [("a", "1")] } }

/-- The single change the first version-update run reports. -/
def c6Cs : List Change :=
  [{ file := "package.json", description := "dependencies: a 0 → 1",
     before := some "0", after := some "1" }]

/-- A Component decorator whose object literal lacks a standalone property. -/
def c7Dec : DecoratorM :=
  { name := "Component",
    args := [DecArgM.objectLit
      [{ kind := PropKindM.propertyAssignment, name := "selector",
         value := PropValM.textVal "app-x" }]] }

/-- A Component decorator whose object literal already assigns standalone. -/
def c7DecStandalone : DecoratorM :=
  { name := "Component",
    args := [DecArgM.objectLit
      [{ kind := PropKindM.propertyAssignment, name := "standalone",
         value := PropValM.textVal "true" }]] }

/-- A Component decorator whose object literal holds a shorthand property
named standalone (`\x7b standalone \x7d`), not a property assignment. -/
def c7DecShorthand : DecoratorM :=
  { name := "Component",
    args := [DecArgM.objectLit
      [{ kind := PropKindM.shorthandPropertyAssignment, name := "standalone",
         value := PropValM.textVal "standalone" }]] }

/-- A zone-glob candidate file (`test.ts`) holding a deep zone.js import and
a `.mutate()` call whose argument literal embeds the deep path. -/
def zoneMutateFile : SFile :=
  { path := "/p/src/test.ts",
    imports := [{ moduleSpecifier := "zone.js/dist/zone", namedImports := [] }],
    bodyIdents := [], classes := [],
    topExprs := [CExpr.call (CExpr.propAccess (CExpr.identE "sig") "mutate")
      [CExpr.litE "\x27zone.js/dist/zone\x27"]],
    binaryExprs := [], typeRefs := [] }

/-- A project whose only source file is the zone-glob candidate above. -/
def c3ZoneWorld : World :=
  { pkg := some { dependencies := some [("@angular/core", "^16.2.0")] },
    tsFiles := [zoneMutateFile] }

/-! # Theorems -/

/-- A file whose only import does not bind the rename target. -/
def c4File : SFile :=
  { path := "/p/src/app/links.ts",
    imports := [{ moduleSpecifier := "@angular/router", namedImports := ["RouterLink"] }],
    bodyIdents := [{ text := "async", parentIsImportSpecifier := false }],
    classes := [], topExprs := [], binaryExprs := [], typeRefs := [] }

/-- A file importing the rename target, with matching identifiers both inside
and outside import specifiers. -/
def c4File2 : SFile :=
  { path := "/p/src/app/spec.ts",
    imports := [{ moduleSpecifier := "@angular/core/testing",
                  namedImports := ["async", "TestBed"] }],
    bodyIdents := [{ text := "async", parentIsImportSpecifier := false },
                   { text := "async", parentIsImportSpecifier := true },
                   { text := "TestBed", parentIsImportSpecifier := false }],
    classes := [], topExprs := [], binaryExprs := [], typeRefs := [] }

/-- A file importing the rename target whose only matching body identifier is
the declared name of an unrelated declaration (e.g. a method or property
named like the import). -/
def c4DeclFile : SFile :=
  { path := "/p/src/app/decl.ts",
    imports := [{ moduleSpecifier := "@angular/core/testing",
                  namedImports := ["async"] }],
    bodyIdents := [{ text := "async", parentIsImportSpecifier := false,
                     parentIsDeclaration := true }],
    classes := [], topExprs := [], binaryExprs := [], typeRefs := [] }

/-- A file with two distinct import statements of the same module both binding
the moved symbol. -/
def c5DupFile : SFile :=
  { path := "/p/src/server.ts",
    imports := [{ moduleSpecifier := "@nguniversal/express-engine",
                  namedImports := ["ngExpressEngine"] },
                { moduleSpecifier := "@nguniversal/express-engine",
                  namedImports := ["ngExpressEngine"] }],
    bodyIdents := [], classes := [], topExprs := [], binaryExprs := [], typeRefs := [] }

/-- A file with a single import statement binding the moved symbol once. -/
def c5GoodFile : SFile :=
  { path := "/p/src/main.server.ts",
    imports := [{ moduleSpecifier := "@nguniversal/express-engine",
                  namedImports := ["ngExpressEngine", "CommonEngine"] }],
    bodyIdents := [], classes := [], topExprs := [], binaryExprs := [], typeRefs := [] }

/-- The declared steps are strictly ascending in both version fields. -/
theorem allSteps_sorted :
    ALL_STEPS.Pairwise (fun a b => a.fromVersion < b.fromVersion ∧ a.toVersion < b.toVersion) := by
  simp [ALL_STEPS, List.pairwise_cons, v15ToV16, v16ToV17, v17ToV18, v18ToV19]

/-- C1: the pipeline selects exactly the declared steps with
`step.from ≥ currentVersion` and `step.to ≤ targetVersion`, in ascending
version order; for source 15 and target 19 the selection is exactly the four
steps 15→16, 16→17, 17→18, 18→19 in that order; for source 17 and target 18
it is exactly [17→18]; and when `currentVersion ≥ targetVersion` the pipeline
runs zero steps and reports success trivially (returns with no results and an
untouched world). -/
theorem c1_step_selection :
    (∀ (s : StepImpl) (cur tgt : Int),
        s ∈ stepsToRun cur tgt ↔ s ∈ ALL_STEPS ∧ cur ≤ s.fromVersion ∧ s.toVersion ≤ tgt) ∧
    (∀ cur tgt : Int, (stepsToRun cur tgt).Pairwise
        (fun a b => a.fromVersion < b.fromVersion ∧ a.toVersion < b.toVersion)) ∧
    stepsToRun 15 19 = [v15ToV16, v16ToV17, v17ToV18, v18ToV19] ∧
    stepsToRun 17 18 = [v17ToV18] ∧
    (∀ (opts : MigratorOptions) (now : String) (w : World) (cur tgt : Int),
        opts.fromVersion = some cur → opts.toVersion = some tgt → tgt ≤ cur →
        migrate opts now w = .ok { world := w, results := [] }) := by
  refine ⟨?_, ?_, rfl, rfl, ?_⟩
  · intro s cur tgt
    simp [stepsToRun, List.mem_filter]
  · intro cur tgt
    exact allSteps_sorted.sublist (List.filter_sublist _)
  · intro opts now w cur tgt h1 h2 h3
    simp only [migrate, h1, h2, Option.getD_some, Bind.bind, Except.bind]
    rw [if_pos (by exact h3)]
    rfl

/-- Witness for C1 at concrete inputs: source 19, target 19 runs nothing. -/
theorem c1_step_selection_witness :
    migrate { projectPath := "/p", fromVersion := some 19, toVersion := some 19 } "t" {} =
      .ok { world := {}, results := [] } :=
  c1_step_selection.2.2.2.2 _ "t" {} 19 19 rfl rfl (le_refl 19)

/-- A successful v15→v16 run reports the step name and no errors. -/
theorem v15ToV16run_ok {ctx w r w'} (h : (v15ToV16).run ctx w = .ok (r, w')) :
    r.step = "Angular 15 → 16" ∧ r.errors = [] := by
  simp only [v15ToV16] at h
  unfold v15ToV16run at h
  cases hp : updatePackageVersions ctx pkgMap15to16 w with
  | error e =>
    rw [hp] at h
    exact absurd h (by simp [Bind.bind, Except.bind])
  | ok p =>
    rw [hp] at h
    obtain ⟨c, w1⟩ := p
    simp only [Bind.bind, Except.bind, pure, Except.pure] at h
    have h' := Except.ok.inj h
    cases h'
    exact ⟨rfl, rfl⟩

/-- A successful v16→v17 run reports the step name and no errors. -/
theorem v16ToV17run_ok {ctx w r w'} (h : (v16ToV17).run ctx w = .ok (r, w')) :
    r.step = "Angular 16 → 17" ∧ r.errors = [] := by
  simp only [v16ToV17] at h
  unfold v16ToV17run at h
  cases hp : updatePackageVersions ctx pkgMap16to17 w with
  | error e =>
    rw [hp] at h
    exact absurd h (by simp [Bind.bind, Except.bind])
  | ok p =>
    rw [hp] at h
    obtain ⟨c, w1⟩ := p
    simp only [Bind.bind, Except.bind] at h
    cases hq : replacePackageDependency
        { projectPath := ctx.projectPath, fromVersion := ctx.fromVersion,
          toVersion := ctx.toVersion, dryRun := ctx.dryRun,
          skipPackageJson := ctx.skipPackageJson }
        "@nguniversal/express-engine" "@angular/ssr" "^17.3.0"
        (removeDefaultProject ctx (migrateBrowserBuilderToApplication ctx w1).2 |>.2 |>
          (fun w2 => (fixZoneJsImports ctx w2).2)) with
    | error e =>
      rw [show replacePackageDependency ctx "@nguniversal/express-engine" "@angular/ssr" "^17.3.0" (fixZoneJsImports ctx (removeDefaultProject ctx (migrateBrowserBuilderToApplication ctx w1).2).2).2 = .error e from hq] at h
      exact absurd h (by simp [Bind.bind, Except.bind])
    | ok q =>
      rw [show replacePackageDependency ctx "@nguniversal/express-engine" "@angular/ssr" "^17.3.0" (fixZoneJsImports ctx (removeDefaultProject ctx (migrateBrowserBuilderToApplication ctx w1).2).2).2 = .ok q from hq] at h
      obtain ⟨c2, w2⟩ := q
      simp only [pure, Except.pure] at h
      have h' := Except.ok.inj h
      cases h'
      exact ⟨rfl, rfl⟩

/-- A successful v17→v18 run reports the step name and no errors. -/
theorem v17ToV18run_ok {ctx w r w'} (h : (v17ToV18).run ctx w = .ok (r, w')) :
    r.step = "Angular 17 → 18" ∧ r.errors = [] := by
  simp only [v17ToV18] at h
  unfold v17ToV18run at h
  cases hp : updatePackageVersions ctx pkgMap17to18 w with
  | error e =>
    rw [hp] at h
    exact absurd h (by simp [Bind.bind, Except.bind])
  | ok p =>
    rw [hp] at h
    obtain ⟨c, w1⟩ := p
    simp only [Bind.bind, Except.bind, pure, Except.pure] at h
    have h' := Except.ok.inj h
    cases h'
    exact ⟨rfl, rfl⟩

set_option maxHeartbeats 2000000 in
/-- A successful v18→v19 run reports the step name and no errors. -/
theorem v18ToV19run_ok {ctx w r w'} (h : (v18ToV19).run ctx w = .ok (r, w')) :
    r.step = "Angular 18 → 19" ∧ r.errors = [] := by
  simp only [v18ToV19] at h
  unfold v18ToV19run at h
  cases hp : updatePackageVersions ctx pkgMap18to19 w with
  | error e =>
    rw [hp] at h
    exact absurd h (by simp [Bind.bind, Except.bind])
  | ok p =>
    rw [hp] at h
    obtain ⟨c, w1⟩ := p
    simp only [Bind.bind, Except.bind, pure, Except.pure] at h
    have h' := Except.ok.inj h
    cases h'
    exact ⟨rfl, rfl⟩

/-- Every declared step's successful run reports that step's name and an
empty error list. -/
theorem allSteps_run_ok {s : StepImpl} (hs : s ∈ ALL_STEPS) {ctx w r w'}
    (h : s.run ctx w = .ok (r, w')) : r.step = s.name ∧ r.errors = [] := by
  simp only [ALL_STEPS, List.mem_cons, List.mem_singleton, List.not_mem_nil, or_false] at hs
  rcases hs with rfl | rfl | rfl | rfl
  · exact v15ToV16run_ok h
  · exact v16ToV17run_ok h
  · exact v17ToV18run_ok h
  · exact v18ToV19run_ok h

/-- Default step used by positional statements. -/
def dfltStep : StepImpl :=
  { fromVersion := 0, toVersion := 0, name := "", run := fun _ _ => .error "" }

/-- Default result used by positional statements. -/
def dfltResult : MigrationResult :=
  { step := "", changes := [], warnings := [], errors := [] }

/-- The step loop produces one result per step, regardless of failures. -/
theorem runSelected_length (opts : MigratorOptions) :
    ∀ (steps : List StepImpl) (w : World),
      (runSelected opts steps w).1.length = steps.length := by
  intro steps
  induction steps with
  | nil => intro w; rfl
  | cons s rest ih =>
    intro w
    simp only [runSelected]
    cases h : s.run (mkStepCtx opts s) w with
    | ok p => simp [ih]
    | error e => simp [ih]

/-- Pointwise description of the step loop: the i-th result comes from
running the i-th step on some intermediate world; a successful run's result
is passed through, a thrown error is recorded as the step-level error result
for that step, and in both cases execution reached every later step. -/
theorem runSelected_pointwise (opts : MigratorOptions) :
    ∀ (steps : List StepImpl) (w : World) (i : Nat), i < steps.length →
      ∃ wIn,
        (∃ r wOut,
            (steps.getD i dfltStep).run (mkStepCtx opts (steps.getD i dfltStep)) wIn = .ok (r, wOut) ∧
            (runSelected opts steps w).1.getD i dfltResult = r) ∨
        (∃ e,
            (steps.getD i dfltStep).run (mkStepCtx opts (steps.getD i dfltStep)) wIn = .error e ∧
            (runSelected opts steps w).1.getD i dfltResult =
              { step := (steps.getD i dfltStep).name, changes := [], warnings := [],
                errors := [{ file := "migrator", message := e }] }) := by
  intro steps
  induction steps with
  | nil => intro w i hi; exact absurd hi (by simp)
  | cons s rest ih =>
    intro w i hi
    match i with
    | 0 =>
      cases hr : s.run (mkStepCtx opts s) w with
      | ok p =>
        exact ⟨w, .inl ⟨p.1, p.2, hr, by simp [runSelected, hr]⟩⟩
      | error e =>
        exact ⟨w, .inr ⟨e, hr, by simp [runSelected, hr]⟩⟩
    | i + 1 =>
      have hi' : i < rest.length := by simpa using hi
      cases hr : s.run (mkStepCtx opts s) w with
      | ok p =>
        obtain ⟨wIn, hcase⟩ := ih p.2 i hi'
        refine ⟨wIn, ?_⟩
        simpa [runSelected, hr] using hcase
      | error e =>
        obtain ⟨wIn, hcase⟩ := ih w i hi'
        refine ⟨wIn, ?_⟩
        simpa [runSelected, hr] using hcase

/-- Unfolding of `migrate` on the path that reaches the step loop. -/
theorem migrate_loop_eq (opts : MigratorOptions) (now : String) (w : World)
    (cur tgt : Int) (hfrom : opts.fromVersion = some cur) (hto : opts.toVersion = some tgt)
    (hlt : cur < tgt) (hne : (stepsToRun cur tgt).isEmpty = false) :
    migrate opts now w =
      .ok { world := writeReport opts.projectPath (runSelected opts (stepsToRun cur tgt) w).1
                       opts.dryRun now (runSelected opts (stepsToRun cur tgt) w).2,
            results := (runSelected opts (stepsToRun cur tgt) w).1 } := by
  simp only [migrate, hfrom, hto, Option.getD_some, Bind.bind, Except.bind]
  rw [if_neg (by omega), hne]
  rfl

/-- Step headings cover every aggregated result inside the report text. -/
theorem heading_mem_reportLines (pp : String) (results : List MigrationResult)
    (dry : Bool) (now : String) (r : MigrationResult) (hr : r ∈ results) :
    ("## " ++ r.step) ∈ reportLines pp results dry now := by
  unfold reportLines
  refine List.mem_append_right _ ?_
  rw [List.mem_flatten]
  exact ⟨resultSection pp r, List.mem_map_of_mem _ hr, List.mem_cons_self _ _⟩

/-- Selected steps are declared steps. -/
theorem stepsToRun_subset {s : StepImpl} {cur tgt : Int}
    (h : s ∈ stepsToRun cur tgt) : s ∈ ALL_STEPS :=
  (List.mem_filter.mp h).1

/-- C10: after every run in which steps were selected, the aggregated result
list has exactly one `MigrationResult` per selected step, in selection order,
each carrying that step's name; a step that throws contributes a result with
empty changes, empty warnings and exactly one error record, so the number of
results always equals the number of selected steps regardless of failures. -/
theorem c10_one_result_per_step (opts : MigratorOptions) (now : String) (w : World)
    (cur tgt : Int) (out : MigrateOut)
    (hfrom : opts.fromVersion = some cur) (hto : opts.toVersion = some tgt)
    (hlt : cur < tgt) (hne : (stepsToRun cur tgt).isEmpty = false)
    (hok : migrate opts now w = .ok out) :
    out.results.length = (stepsToRun cur tgt).length ∧
    (∀ i, i < (stepsToRun cur tgt).length →
      (out.results.getD i dfltResult).step = ((stepsToRun cur tgt).getD i dfltStep).name ∧
      ((out.results.getD i dfltResult).errors = [] ∨
        ((out.results.getD i dfltResult).changes = [] ∧
         (out.results.getD i dfltResult).warnings = [] ∧
         (out.results.getD i dfltResult).errors.length = 1))) := by
  rw [migrate_loop_eq opts now w cur tgt hfrom hto hlt hne] at hok
  have hout := (Except.ok.inj hok).symm
  subst hout
  refine ⟨runSelected_length opts _ w, ?_⟩
  intro i hi
  obtain ⟨wIn, hcase⟩ := runSelected_pointwise opts (stepsToRun cur tgt) w i hi
  have hmem : (stepsToRun cur tgt).getD i dfltStep ∈ ALL_STEPS :=
    stepsToRun_subset (by
      rw [List.getD_eq_getElem _ _ hi]
      exact List.getElem_mem hi)
  rcases hcase with ⟨r, wOut, hrun, hres⟩ | ⟨e, hrun, hres⟩
  · obtain ⟨hname, herr⟩ := allSteps_run_ok hmem hrun
    rw [hres]
    exact ⟨hname, .inl herr⟩
  · rw [hres]
    exact ⟨rfl, .inr ⟨rfl, rfl, rfl⟩⟩

/-- C8: when a step's body throws, the orchestrator catches it, records a
step-level error result attributed to that step, still produces a result for
every selected step (execution continues past the failure), and still
generates the report document, whose text contains the heading of every
step's section; a failing step never aborts the run or suppresses the
report. -/
theorem c8_failure_isolation (opts : MigratorOptions) (now : String) (w : World)
    (cur tgt : Int) (out : MigrateOut)
    (hfrom : opts.fromVersion = some cur) (hto : opts.toVersion = some tgt)
    (hlt : cur < tgt) (hne : (stepsToRun cur tgt).isEmpty = false)
    (hok : migrate opts now w = .ok out) :
    out.results.length = (stepsToRun cur tgt).length ∧
    out.world.report = some (reportLines opts.projectPath out.results opts.dryRun now) ∧
    (∀ r ∈ out.results,
      ("## " ++ r.step) ∈ reportLines opts.projectPath out.results opts.dryRun now) ∧
    (∀ i, i < (stepsToRun cur tgt).length → ∃ wIn,
      (∃ r wOut,
          ((stepsToRun cur tgt).getD i dfltStep).run
            (mkStepCtx opts ((stepsToRun cur tgt).getD i dfltStep)) wIn = .ok (r, wOut) ∧
          out.results.getD i dfltResult = r) ∨
      (∃ e,
          ((stepsToRun cur tgt).getD i dfltStep).run
            (mkStepCtx opts ((stepsToRun cur tgt).getD i dfltStep)) wIn = .error e ∧
          out.results.getD i dfltResult =
            { step := ((stepsToRun cur tgt).getD i dfltStep).name, changes := [],
              warnings := [], errors := [{ file := "migrator", message := e }] })) := by
  rw [migrate_loop_eq opts now w cur tgt hfrom hto hlt hne] at hok
  have hout := (Except.ok.inj hok).symm
  subst hout
  refine ⟨runSelected_length opts _ w, rfl, ?_, ?_⟩
  · intro r hr
    exact heading_mem_reportLines _ _ _ _ r hr
  · intro i hi
    exact runSelected_pointwise opts (stepsToRun cur tgt) w i hi

/-- Witness for C10: a run over 18→19 on a project with no package.json (the
step body throws) still yields exactly one result. -/
theorem c10_one_result_per_step_witness :
    ((migrate opts18to19 "t" noPkgWorld).toOption.map
      (fun o => o.results.length)) = some 1 := by
  cases hok : migrate opts18to19 "t" noPkgWorld with
  | error e =>
    have hs : (migrate opts18to19 "t" noPkgWorld).toOption.isSome = true := rfl
    rw [hok] at hs
    simp [Except.toOption] at hs
  | ok out =>
    have h := c10_one_result_per_step _ "t" _ 18 19 out rfl rfl (by decide) (by decide) hok
    have hlen : out.results.length = 1 := by rw [h.1]; rfl
    simp [Except.toOption, hlen]

/-- Witness for C8: a run over 15→19 on a project with no package.json (all
four step bodies throw) still yields four results and a report. -/
theorem c8_failure_isolation_witness :
    ((migrate opts15to19 "t" noPkgWorld).toOption.map
      (fun o => (o.results.length, o.world.report.isSome))) = some (4, true) := by
  cases hok : migrate opts15to19 "t" noPkgWorld with
  | error e =>
    have hs : (migrate opts15to19 "t" noPkgWorld).toOption.isSome = true := rfl
    rw [hok] at hs
    simp [Except.toOption] at hs
  | ok out =>
    have h := c8_failure_isolation _ "t" _ 15 19 out rfl rfl (by decide) (by decide) hok
    have hlen : out.results.length = 4 := by rw [h.1]; rfl
    simp [Except.toOption, hlen, h.2.1]

/-- C9: applied to a file where the factory result is first assigned to a
variable and then used in a different expression, the
`resolveComponentFactory`/`createComponent` migration produces zero automatic
edits (no changes, trees untouched, no write) and exactly one warning. -/
theorem c9_ambiguity_conservatism (path a b comp varName vcr : String)
    (ctx : MigrationContext) (w : World) :
    (migrateComponentFactoryResolver [c9File path a b comp varName vcr] ctx w).1 = [] ∧
    (migrateComponentFactoryResolver [c9File path a b comp varName vcr] ctx w).2.1.length = 1 ∧
    (migrateComponentFactoryResolver [c9File path a b comp varName vcr] ctx w).2.2.1 =
      [c9File path a b comp varName vcr] ∧
    (migrateComponentFactoryResolver [c9File path a b comp varName vcr] ctx w).2.2.2 = w := by
  refine ⟨?_, ?_, ?_, ?_⟩ <;> rfl

/-- In a preview run, `updatePackageVersions` leaves the world untouched. -/
theorem updatePackageVersions_dry_world {ctx : MigrationContext} (hdry : ctx.dryRun = true)
    {updates : List (String × String)} {w : World} {cs : List Change} {w' : World}
    (h : updatePackageVersions ctx updates w = .ok (cs, w')) : w' = w := by
  unfold updatePackageVersions at h
  by_cases hskip : ctx.skipPackageJson
  · rw [if_pos hskip] at h
    exact ((Prod.mk.injEq _ _ _ _ ▸ Except.ok.inj h).2).symm ▸ rfl
  · rw [if_neg hskip] at h
    cases hr : readPackageJson w with
    | error e => rw [hr] at h; exact absurd h (by simp [Bind.bind, Except.bind])
    | ok p =>
      rw [hr] at h
      simp only [Bind.bind, Except.bind, hdry] at h
      have h' := Except.ok.inj h
      simp at h'
      exact h'.2.symm

/-- In a preview run, `replacePackageDependency` leaves the world untouched. -/
theorem replacePackageDependency_dry_world {ctx : MigrationContext} (hdry : ctx.dryRun = true)
    {oldName newName newVersion : String} {w : World} {cs : List Change} {w' : World}
    (h : replacePackageDependency ctx oldName newName newVersion w = .ok (cs, w')) : w' = w := by
  unfold replacePackageDependency at h
  by_cases hskip : ctx.skipPackageJson
  · rw [if_pos hskip] at h
    exact ((Prod.mk.injEq _ _ _ _ ▸ Except.ok.inj h).2).symm ▸ rfl
  · rw [if_neg hskip] at h
    cases hr : readPackageJson w with
    | error e => rw [hr] at h; exact absurd h (by simp [Bind.bind, Except.bind])
    | ok p =>
      rw [hr] at h
      simp only [Bind.bind, Except.bind, hdry] at h
      have h' := Except.ok.inj h
      simp at h'
      exact h'.2.symm

/-- In a preview run, the builder migration leaves the world untouched. -/
theorem migrateBrowserBuilder_dry {ctx : MigrationContext} (hdry : ctx.dryRun = true)
    (w : World) : (migrateBrowserBuilderToApplication ctx w).2 = w := by
  unfold migrateBrowserBuilderToApplication
  cases hj : readAngularJson w with
  | none => rfl
  | some config => cases hp : config.projects <;> simp [hp, hdry]

/-- In a preview run, `removeDefaultProject` leaves the world untouched. -/
theorem removeDefaultProject_dry {ctx : MigrationContext} (hdry : ctx.dryRun = true)
    (w : World) : (removeDefaultProject ctx w).2 = w := by
  unfold removeDefaultProject
  cases hj : readAngularJson w with
  | none => rfl
  | some config => cases hd : config.defaultProject <;> simp [hd, hdry]

/-- In a preview run, `fixZoneJsImports` leaves the world untouched. -/
theorem fixZoneJsImports_dry {ctx : MigrationContext} (hdry : ctx.dryRun = true)
    (w : World) : (fixZoneJsImports ctx w).2 = w := by
  unfold fixZoneJsImports
  simp [hdry]

/-- In a preview run, the per-file codemod loop performs no save. -/
theorem runPerFile_world_dry (f : SFile → SFile × Bool × List Change × List Warning)
    {ctx : MigrationContext} (hdry : ctx.dryRun = true) :
    ∀ (files : List SFile) (w : World), (runPerFile f ctx files w).2.2.2 = w := by
  intro files
  induction files with
  | nil => intro w; rfl
  | cons sf rest ih =>
    intro w
    simp only [runPerFile]
    rcases hf : f sf with ⟨sf', changed, cs, ws⟩
    simp [hf, hdry, ih]

/-- Preview-mode world preservation for `renameNamedImport`. -/
theorem renameNamedImport_dry (files : List SFile) (m o n : String)
    {ctx : MigrationContext} (hdry : ctx.dryRun = true) (w : World) :
    (renameNamedImport files m o n ctx w).2.2 = w :=
  runPerFile_world_dry _ hdry files w

/-- Preview-mode world preservation for `moveImport`. -/
theorem moveImport_dry (files : List SFile) (s f t : String)
    {ctx : MigrationContext} (hdry : ctx.dryRun = true) (w : World) :
    (moveImport files s f t ctx w).2.2 = w :=
  runPerFile_world_dry _ hdry files w

/-- Preview-mode world preservation for `removeObsoleteImport`. -/
theorem removeObsoleteImport_dry (files : List SFile) (m s : String)
    {ctx : MigrationContext} (hdry : ctx.dryRun = true) (w : World) :
    (removeObsoleteImport files m s ctx w).2.2.2 = w :=
  runPerFile_world_dry _ hdry files w

/-- Preview-mode world preservation for `removeFromNgModuleArrays`. -/
theorem removeFromNgModuleArrays_dry (files : List SFile) (s : String)
    {ctx : MigrationContext} (hdry : ctx.dryRun = true) (w : World) :
    (removeFromNgModuleArrays files s ctx w).2.2 = w :=
  runPerFile_world_dry _ hdry files w

/-- Preview-mode world preservation for `migrateComponentFactoryResolver`. -/
theorem migrateCFR_dry (files : List SFile)
    {ctx : MigrationContext} (hdry : ctx.dryRun = true) (w : World) :
    (migrateComponentFactoryResolver files ctx w).2.2.2 = w :=
  runPerFile_world_dry _ hdry files w

/-- Preview-mode world preservation for `migrateCanLoadToCanMatch`. -/
theorem migrateCanLoad_dry (files : List SFile)
    {ctx : MigrationContext} (hdry : ctx.dryRun = true) (w : World) :
    (migrateCanLoadToCanMatch files ctx w).2.2 = w :=
  runPerFile_world_dry _ hdry files w

/-- Preview-mode world preservation for
`removeBrowserModuleWithServerTransition`. -/
theorem removeWST_dry (files : List SFile)
    {ctx : MigrationContext} (hdry : ctx.dryRun = true) (w : World) :
    (removeBrowserModuleWithServerTransition files ctx w).2.2 = w :=
  runPerFile_world_dry _ hdry files w

/-- Preview-mode world preservation for `addStandaloneFalse`. -/
theorem addStandaloneFalse_dry (files : List SFile)
    {ctx : MigrationContext} (hdry : ctx.dryRun = true) (w : World) :
    (addStandaloneFalse files ctx w).2.2 = w :=
  runPerFile_world_dry _ hdry files w

/-- Preview-mode world preservation for `migrateAsyncToWaitForAsync`. -/
theorem migrateAsync_dry (files : List SFile)
    {ctx : MigrationContext} (hdry : ctx.dryRun = true) (w : World) :
    (migrateAsyncToWaitForAsync files ctx w).2.2 = w :=
  runPerFile_world_dry _ hdry files w

/-- A preview v15→v16 run leaves the world untouched. -/
theorem v15ToV16run_dry {ctx w r w'} (hdry : ctx.dryRun = true)
    (h : (v15ToV16).run ctx w = .ok (r, w')) : w' = w := by
  simp only [v15ToV16] at h
  unfold v15ToV16run at h
  cases hp : updatePackageVersions ctx pkgMap15to16 w with
  | error e => rw [hp] at h; exact absurd h (by simp [Bind.bind, Except.bind])
  | ok p =>
    obtain ⟨c0, w1⟩ := p
    have hw1 : w1 = w := updatePackageVersions_dry_world hdry hp
    subst hw1
    rw [hp] at h
    simp only [Bind.bind, Except.bind, pure, Except.pure] at h
    have h' := Except.ok.inj h
    have hw := congrArg Prod.snd h'
    simp only at hw
    rw [← hw]
    simp [moveImport_dry _ _ _ _ hdry, removeObsoleteImport_dry _ _ _ hdry,
      removeFromNgModuleArrays_dry _ _ hdry]

/-- A preview v16→v17 run leaves the world untouched. -/
theorem v16ToV17run_dry {ctx w r w'} (hdry : ctx.dryRun = true)
    (h : (v16ToV17).run ctx w = .ok (r, w')) : w' = w := by
  simp only [v16ToV17] at h
  unfold v16ToV17run at h
  cases hp : updatePackageVersions ctx pkgMap16to17 w with
  | error e => rw [hp] at h; exact absurd h (by simp [Bind.bind, Except.bind])
  | ok p =>
    obtain ⟨c0, w1⟩ := p
    have hw1 : w1 = w := updatePackageVersions_dry_world hdry hp
    rw [hp] at h
    rw [show ((c0, w1) : List Change × World) = (c0, w) from by rw [hw1]] at h
    simp only [Bind.bind, Except.bind] at h
    rw [migrateBrowserBuilder_dry hdry, removeDefaultProject_dry hdry,
      fixZoneJsImports_dry hdry] at h
    cases hq : replacePackageDependency ctx "@nguniversal/express-engine" "@angular/ssr"
        "^17.3.0" w with
    | error e => rw [hq] at h; exact absurd h (by simp)
    | ok q =>
      obtain ⟨c2, w2⟩ := q
      have hw2 : w2 = w := replacePackageDependency_dry_world hdry hq
      subst hw2
      rw [hq] at h
      simp only [pure, Except.pure] at h
      have h' := Except.ok.inj h
      have hw := congrArg Prod.snd h'
      simp only at hw
      rw [← hw]
      simp [renameNamedImport_dry _ _ _ _ hdry, moveImport_dry _ _ _ _ hdry,
        removeDominoSetup, migrateCanLoad_dry _ hdry, migrateCFR_dry _ hdry,
        removeObsoleteImport_dry _ _ _ hdry]

/-- A preview v17→v18 run leaves the world untouched. -/
theorem v17ToV18run_dry {ctx w r w'} (hdry : ctx.dryRun = true)
    (h : (v17ToV18).run ctx w = .ok (r, w')) : w' = w := by
  simp only [v17ToV18] at h
  unfold v17ToV18run at h
  cases hp : updatePackageVersions ctx pkgMap17to18 w with
  | error e => rw [hp] at h; exact absurd h (by simp [Bind.bind, Except.bind])
  | ok p =>
    obtain ⟨c0, w1⟩ := p
    have hw1 : w1 = w := updatePackageVersions_dry_world hdry hp
    subst hw1
    rw [hp] at h
    simp only [Bind.bind, Except.bind, pure, Except.pure] at h
    have h' := Except.ok.inj h
    have hw := congrArg Prod.snd h'
    simp only at hw
    rw [← hw]
    simp [migrateAsync_dry _ hdry, removeObsoleteImport_dry _ _ _ hdry]

set_option maxHeartbeats 2000000 in
/-- A preview v18→v19 run leaves the world untouched. -/
theorem v18ToV19run_dry {ctx w r w'} (hdry : ctx.dryRun = true)
    (h : (v18ToV19).run ctx w = .ok (r, w')) : w' = w := by
  simp only [v18ToV19] at h
  unfold v18ToV19run at h
  cases hp : updatePackageVersions ctx pkgMap18to19 w with
  | error e => rw [hp] at h; exact absurd h (by simp [Bind.bind, Except.bind])
  | ok p =>
    obtain ⟨c0, w1⟩ := p
    have hw1 : w1 = w := updatePackageVersions_dry_world hdry hp
    subst hw1
    rw [hp] at h
    simp only [Bind.bind, Except.bind, pure, Except.pure] at h
    have h' := Except.ok.inj h
    have hw := congrArg Prod.snd h'
    simp only at hw
    rw [← hw]
    simp [renameNamedImport_dry _ _ _ _ hdry, removeWST_dry _ hdry,
      removeObsoleteImport_dry _ _ _ hdry, addStandaloneFalse_dry _ hdry]

/-- A preview run of any declared step leaves the world untouched. -/
theorem allSteps_run_dry {s : StepImpl} (hs : s ∈ ALL_STEPS) {ctx w r w'}
    (hdry : ctx.dryRun = true) (h : s.run ctx w = .ok (r, w')) : w' = w := by
  simp only [ALL_STEPS, List.mem_cons, List.mem_singleton, List.not_mem_nil, or_false] at hs
  rcases hs with rfl | rfl | rfl | rfl
  · exact v15ToV16run_dry hdry h
  · exact v16ToV17run_dry hdry h
  · exact v17ToV18run_dry hdry h
  · exact v18ToV19run_dry hdry h

/-- A preview step loop leaves the world untouched. -/
theorem runSelected_dry {opts : MigratorOptions} (hdry : opts.dryRun = true) :
    ∀ (steps : List StepImpl) (w : World), (∀ s ∈ steps, s ∈ ALL_STEPS) →
      (runSelected opts steps w).2 = w := by
  intro steps
  induction steps with
  | nil => intro w _; rfl
  | cons s rest ih =>
    intro w hall
    simp only [runSelected]
    cases hr : s.run (mkStepCtx opts s) w with
    | ok p =>
      have hp : p.2 = w :=
        allSteps_run_dry (hall s (List.mem_cons_self _ _)) (show (mkStepCtx opts s).dryRun = true from hdry) hr
      simp only []
      rw [ih p.2 (fun t ht => hall t (List.mem_cons_of_mem _ ht)), hp]
    | error e =>
      simp only []
      rw [ih w (fun t ht => hall t (List.mem_cons_of_mem _ ht))]

/-- C2 counterexample: a preview (dry-run) 18→19 run over a project that has
no report on disk ends with `migration-report.md` present — `writeReport` is
called unconditionally (src/migrator.ts line 90, write at lines 181–182), so
the claim that every file creation including the generated report document is
suppressed in preview mode is false at this input. -/
theorem c2_preview_counterexample :
    c2World.report = none ∧
    (migrate opts18to19dry "2026-01-01 00:00:00" c2World).toOption.map
      (fun out => out.world.report.isSome) = some true :=
  ⟨rfl, rfl⟩

/-- C2 (amended): in every preview run, no source file, package manifest,
build configuration or setup text file is persisted — the project state on
disk is untouched — but the report document is still written whenever any
step was selected. -/
theorem c2_preview_no_persistence (opts : MigratorOptions) (now : String) (w : World)
    (out : MigrateOut) (hdry : opts.dryRun = true) (hok : migrate opts now w = .ok out) :
    out.world.pkg = w.pkg ∧ out.world.angularJson = w.angularJson ∧
    out.world.tsFiles = w.tsFiles ∧ out.world.textFiles = w.textFiles ∧
    (out.results ≠ [] →
      out.world.report = some (reportLines opts.projectPath out.results opts.dryRun now)) := by
  unfold migrate at hok
  cases hfv : opts.fromVersion with
  | none =>
    rw [hfv] at hok
    cases hdet : detectAngularVersion w with
    | error e =>
      rw [hdet] at hok
      exact absurd hok (by simp [Bind.bind, Except.bind])
    | ok cur =>
      rw [hdet] at hok
      simp only [Bind.bind, Except.bind, pure, Except.pure] at hok
      split at hok
      · have h' := (Except.ok.inj hok).symm
        subst h'
        exact ⟨rfl, rfl, rfl, rfl, fun hne => absurd rfl hne⟩
      · split at hok
        · have h' := (Except.ok.inj hok).symm
          subst h'
          exact ⟨rfl, rfl, rfl, rfl, fun hne => absurd rfl hne⟩
        · have h' := (Except.ok.inj hok).symm
          subst h'
          have hsel : ∀ s ∈ stepsToRun cur (opts.toVersion.getD 19), s ∈ ALL_STEPS :=
            fun s hs => stepsToRun_subset hs
          have hw := runSelected_dry hdry (stepsToRun cur (opts.toVersion.getD 19)) w hsel
          refine ⟨?_, ?_, ?_, ?_, fun _ => rfl⟩ <;>
            simp [writeReport, hw]
  | some cur =>
    rw [hfv] at hok
    simp only [Bind.bind, Except.bind, pure, Except.pure] at hok
    split at hok
    · have h' := (Except.ok.inj hok).symm
      subst h'
      exact ⟨rfl, rfl, rfl, rfl, fun hne => absurd rfl hne⟩
    · split at hok
      · have h' := (Except.ok.inj hok).symm
        subst h'
        exact ⟨rfl, rfl, rfl, rfl, fun hne => absurd rfl hne⟩
      · have h' := (Except.ok.inj hok).symm
        subst h'
        have hsel : ∀ s ∈ stepsToRun cur (opts.toVersion.getD 19), s ∈ ALL_STEPS :=
          fun s hs => stepsToRun_subset hs
        have hw := runSelected_dry hdry (stepsToRun cur (opts.toVersion.getD 19)) w hsel
        refine ⟨?_, ?_, ?_, ?_, fun _ => rfl⟩ <;>
          simp [writeReport, hw]

/-- Witness for the amended C2 at a concrete preview run. -/
theorem c2_preview_no_persistence_witness :
    (migrate opts18to19dry "t" c2World).toOption.map
      (fun out => (out.world.pkg == c2World.pkg, out.world.tsFiles.length)) =
      some (true, 0) := by
  cases hok : migrate opts18to19dry "t" c2World with
  | error e =>
    have hs : (migrate opts18to19dry "t" c2World).toOption.isSome = true := rfl
    rw [hok] at hs
    simp [Except.toOption] at hs
  | ok out =>
    have h := c2_preview_no_persistence opts18to19dry "t" c2World out rfl hok
    simp only [Except.toOption, Option.map]
    rw [h.1, h.2.2.1]
    rfl

/-- The changes, warnings and in-memory trees of the per-file loop depend
only on the per-file function and the file list — never on the context flags
or the file system. -/
theorem runPerFile_proj (f : SFile → SFile × Bool × List Change × List Warning)
    (ctx : MigrationContext) : ∀ (files : List SFile) (w : World),
    (runPerFile f ctx files w).1 = perFileCs f files ∧
    (runPerFile f ctx files w).2.1 = perFileWs f files ∧
    (runPerFile f ctx files w).2.2.1 = perFileMem f files := by
  intro files
  induction files with
  | nil => intro w; exact ⟨rfl, rfl, rfl⟩
  | cons sf rest ih =>
    intro w
    simp only [runPerFile]
    rcases hf : f sf with ⟨sf', changed, cs, ws⟩
    simp only [hf]
    obtain ⟨h1, h2, h3⟩ := ih (if changed && !ctx.dryRun then saveTsFile sf' w else w)
    rw [h1, h2, h3]
    simp [perFileCs, perFileWs, perFileMem, hf]

/-- `renameNamedImport` projections. -/
theorem renameNamedImport_cs (files : List SFile) (m o n : String)
    (ctx : MigrationContext) (w : World) :
    (renameNamedImport files m o n ctx w).1 = perFileCs (renamePerFile m o n) files :=
  (runPerFile_proj _ ctx files w).1

/-- `renameNamedImport` in-memory output. -/
theorem renameNamedImport_mem (files : List SFile) (m o n : String)
    (ctx : MigrationContext) (w : World) :
    (renameNamedImport files m o n ctx w).2.1 = perFileMem (renamePerFile m o n) files :=
  (runPerFile_proj _ ctx files w).2.2

/-- `moveImport` projections. -/
theorem moveImport_cs (files : List SFile) (s f t : String)
    (ctx : MigrationContext) (w : World) :
    (moveImport files s f t ctx w).1 = perFileCs (movePerFile s f t) files :=
  (runPerFile_proj _ ctx files w).1

/-- `moveImport` in-memory output. -/
theorem moveImport_mem (files : List SFile) (s f t : String)
    (ctx : MigrationContext) (w : World) :
    (moveImport files s f t ctx w).2.1 = perFileMem (movePerFile s f t) files :=
  (runPerFile_proj _ ctx files w).2.2

/-- `removeObsoleteImport` changes. -/
theorem removeObsoleteImport_cs (files : List SFile) (m s : String)
    (ctx : MigrationContext) (w : World) :
    (removeObsoleteImport files m s ctx w).1 = perFileCs (removeObsPerFile m s) files :=
  (runPerFile_proj _ ctx files w).1

/-- `removeObsoleteImport` warnings. -/
theorem removeObsoleteImport_ws (files : List SFile) (m s : String)
    (ctx : MigrationContext) (w : World) :
    (removeObsoleteImport files m s ctx w).2.1 = perFileWs (removeObsPerFile m s) files :=
  (runPerFile_proj _ ctx files w).2.1

/-- `removeObsoleteImport` in-memory output. -/
theorem removeObsoleteImport_mem (files : List SFile) (m s : String)
    (ctx : MigrationContext) (w : World) :
    (removeObsoleteImport files m s ctx w).2.2.1 = perFileMem (removeObsPerFile m s) files :=
  (runPerFile_proj _ ctx files w).2.2

/-- `removeFromNgModuleArrays` changes. -/
theorem removeFromNgModuleArrays_cs (files : List SFile) (s : String)
    (ctx : MigrationContext) (w : World) :
    (removeFromNgModuleArrays files s ctx w).1 = perFileCs (removeNgArraysPerFile s) files :=
  (runPerFile_proj _ ctx files w).1

/-- `removeFromNgModuleArrays` in-memory output. -/
theorem removeFromNgModuleArrays_mem (files : List SFile) (s : String)
    (ctx : MigrationContext) (w : World) :
    (removeFromNgModuleArrays files s ctx w).2.1 = perFileMem (removeNgArraysPerFile s) files :=
  (runPerFile_proj _ ctx files w).2.2

/-- `migrateComponentFactoryResolver` changes. -/
theorem migrateCFR_cs (files : List SFile) (ctx : MigrationContext) (w : World) :
    (migrateComponentFactoryResolver files ctx w).1 = perFileCs cfrPerFile files :=
  (runPerFile_proj _ ctx files w).1

/-- `migrateComponentFactoryResolver` warnings. -/
theorem migrateCFR_ws (files : List SFile) (ctx : MigrationContext) (w : World) :
    (migrateComponentFactoryResolver files ctx w).2.1 = perFileWs cfrPerFile files :=
  (runPerFile_proj _ ctx files w).2.1

/-- `migrateComponentFactoryResolver` in-memory output. -/
theorem migrateCFR_mem (files : List SFile) (ctx : MigrationContext) (w : World) :
    (migrateComponentFactoryResolver files ctx w).2.2.1 = perFileMem cfrPerFile files :=
  (runPerFile_proj _ ctx files w).2.2

/-- `migrateCanLoadToCanMatch` changes. -/
theorem migrateCanLoad_cs (files : List SFile) (ctx : MigrationContext) (w : World) :
    (migrateCanLoadToCanMatch files ctx w).1 = perFileCs canLoadPerFile files :=
  (runPerFile_proj _ ctx files w).1

/-- `migrateCanLoadToCanMatch` in-memory output. -/
theorem migrateCanLoad_mem (files : List SFile) (ctx : MigrationContext) (w : World) :
    (migrateCanLoadToCanMatch files ctx w).2.1 = perFileMem canLoadPerFile files :=
  (runPerFile_proj _ ctx files w).2.2

/-- `removeBrowserModuleWithServerTransition` changes. -/
theorem removeWST_cs (files : List SFile) (ctx : MigrationContext) (w : World) :
    (removeBrowserModuleWithServerTransition files ctx w).1 = perFileCs wstPerFile files :=
  (runPerFile_proj _ ctx files w).1

/-- `removeBrowserModuleWithServerTransition` in-memory output. -/
theorem removeWST_mem (files : List SFile) (ctx : MigrationContext) (w : World) :
    (removeBrowserModuleWithServerTransition files ctx w).2.1 = perFileMem wstPerFile files :=
  (runPerFile_proj _ ctx files w).2.2

/-- `addStandaloneFalse` changes. -/
theorem addStandaloneFalse_cs (files : List SFile) (ctx : MigrationContext) (w : World) :
    (addStandaloneFalse files ctx w).1 = perFileCs standalonePerFile files :=
  (runPerFile_proj _ ctx files w).1

/-- `addStandaloneFalse` in-memory output. -/
theorem addStandaloneFalse_mem (files : List SFile) (ctx : MigrationContext) (w : World) :
    (addStandaloneFalse files ctx w).2.1 = perFileMem standalonePerFile files :=
  (runPerFile_proj _ ctx files w).2.2

/-- `migrateAsyncToWaitForAsync` changes. -/
theorem migrateAsync_cs (files : List SFile) (ctx : MigrationContext) (w : World) :
    (migrateAsyncToWaitForAsync files ctx w).1 =
      perFileCs (renamePerFile "@angular/core/testing" "async" "waitForAsync") files :=
  (runPerFile_proj _ ctx files w).1

/-- `migrateAsyncToWaitForAsync` in-memory output. -/
theorem migrateAsync_mem (files : List SFile) (ctx : MigrationContext) (w : World) :
    (migrateAsyncToWaitForAsync files ctx w).2.1 =
      perFileMem (renamePerFile "@angular/core/testing" "async" "waitForAsync") files :=
  (runPerFile_proj _ ctx files w).2.2

/-- Closed form of `updatePackageVersions`. -/
theorem updatePackageVersions_eq (ctx : MigrationContext) (u : List (String × String))
    (w : World) :
    updatePackageVersions ctx u w =
      if ctx.skipPackageJson then .ok ([], w)
      else
        match w.pkg with
        | none => .error "package.json not found"
        | some p =>
          .ok ((updatePkgCore p u).2,
            if (updatePkgCore p u).2 ≠ [] ∧ ¬ctx.dryRun
            then writePackageJson (updatePkgCore p u).1 w else w) := by
  unfold updatePackageVersions readPackageJson
  by_cases hs : ctx.skipPackageJson
  · simp [hs]
  · simp only [hs, if_false, Bool.false_eq_true]
    cases w.pkg <;> simp [Bind.bind, Except.bind]

/-- Closed form of `replacePackageDependency`. -/
theorem replacePackageDependency_eq (ctx : MigrationContext) (o n v : String) (w : World) :
    replacePackageDependency ctx o n v w =
      if ctx.skipPackageJson then .ok ([], w)
      else
        match w.pkg with
        | none => .error "package.json not found"
        | some p =>
          .ok ((replacePkgCore p o n v).2,
            if (replacePkgCore p o n v).2 ≠ [] ∧ ¬ctx.dryRun
            then writePackageJson (replacePkgCore p o n v).1 w else w) := by
  unfold replacePackageDependency readPackageJson
  by_cases hs : ctx.skipPackageJson
  · simp [hs]
  · simp only [hs, if_false, Bool.false_eq_true]
    cases w.pkg <;> simp [Bind.bind, Except.bind]

/-- Closed form of `migrateBrowserBuilderToApplication`. -/
theorem migrateBrowserBuilder_eq (ctx : MigrationContext) (w : World) :
    migrateBrowserBuilderToApplication ctx w =
      match w.angularJson with
      | none => ([], w)
      | some config =>
        match config.projects with
        | none => ([], w)
        | some _ =>
          ((migrateBuilderCore config).2,
            if (migrateBuilderCore config).2 ≠ [] ∧ ¬ctx.dryRun
            then writeAngularJson (migrateBuilderCore config).1 w else w) := by
  unfold migrateBrowserBuilderToApplication readAngularJson
  cases w.angularJson with
  | none => rfl
  | some config => cases hp : config.projects <;> simp [hp, migrateBuilderCore]

/-- Closed form of `removeDefaultProject`. -/
theorem removeDefaultProject_eq (ctx : MigrationContext) (w : World) :
    removeDefaultProject ctx w =
      match w.angularJson with
      | none => ([], w)
      | some config =>
        match config.defaultProject with
        | none => ([], w)
        | some _ =>
          ([{ file := "angular.json",
              description := "Removed deprecated \"defaultProject\" field",
              before := none, after := none }],
            if ¬ctx.dryRun then writeAngularJson { config with defaultProject := none } w
            else w) := by
  unfold removeDefaultProject readAngularJson
  cases w.angularJson with
  | none => rfl
  | some config => cases hd : config.defaultProject <;> simp [hd]

/-- The builder migration preserves `defaultProject`. -/
theorem migrateBuilderCore_defaultProject (config : AJson) :
    (migrateBuilderCore config).1.defaultProject = config.defaultProject := by
  unfold migrateBuilderCore
  cases config.projects <;> rfl

/-- The zone.js text fix reads only the project TypeScript files. -/
theorem fixZoneJsImports_cs (ctx ctx' : MigrationContext) (w w' : World)
    (h : w.tsFiles = w'.tsFiles) :
    (fixZoneJsImports ctx w).1 = (fixZoneJsImports ctx' w').1 := by
  unfold fixZoneJsImports
  rw [h]

/-- The zone.js changes depend only on the project TypeScript files. -/
theorem fixZone_cs_eq (ctx : MigrationContext) (w : World) :
    (fixZoneJsImports ctx w).1 = fixZoneChanges w.tsFiles := rfl

/-- Field projections of the file-system writers. -/
theorem writePackageJson_tsFiles (p : Pkg) (w : World) :
    (writePackageJson p w).tsFiles = w.tsFiles := rfl

/-- `writePackageJson` leaves the workspace config untouched. -/
theorem writePackageJson_angularJson (p : Pkg) (w : World) :
    (writePackageJson p w).angularJson = w.angularJson := rfl

/-- `writePackageJson` leaves the text files untouched. -/
theorem writePackageJson_textFiles (p : Pkg) (w : World) :
    (writePackageJson p w).textFiles = w.textFiles := rfl

/-- `writePackageJson` sets the package manifest. -/
theorem writePackageJson_pkg (p : Pkg) (w : World) :
    (writePackageJson p w).pkg = some p := rfl

/-- `writeAngularJson` leaves the package manifest untouched. -/
theorem writeAngularJson_pkg (c : AJson) (w : World) :
    (writeAngularJson c w).pkg = w.pkg := rfl

/-- `writeAngularJson` leaves the text files untouched. -/
theorem writeAngularJson_textFiles (c : AJson) (w : World) :
    (writeAngularJson c w).textFiles = w.textFiles := rfl

/-- `writeAngularJson` leaves the TypeScript files untouched. -/
theorem writeAngularJson_tsFiles (c : AJson) (w : World) :
    (writeAngularJson c w).tsFiles = w.tsFiles := rfl

/-- `writeAngularJson` sets the workspace config. -/
theorem writeAngularJson_angularJson (c : AJson) (w : World) :
    (writeAngularJson c w).angularJson = some c := rfl

/-- `fixZoneJsImports` leaves the package manifest untouched. -/
theorem fixZone_world_pkg (ctx : MigrationContext) (w : World) :
    (fixZoneJsImports ctx w).2.pkg = w.pkg := by
  unfold fixZoneJsImports
  split <;> rfl

/-- `fixZoneJsImports` leaves the workspace config untouched. -/
theorem fixZone_world_angularJson (ctx : MigrationContext) (w : World) :
    (fixZoneJsImports ctx w).2.angularJson = w.angularJson := by
  unfold fixZoneJsImports
  split <;> rfl

/-- `fixZoneJsImports` leaves the non-TypeScript text files untouched (it
writes into the project TypeScript files it rewrote). -/
theorem fixZone_world_textFiles (ctx : MigrationContext) (w : World) :
    (fixZoneJsImports ctx w).2.textFiles = w.textFiles := by
  unfold fixZoneJsImports
  split <;> rfl

/-- `jsSet` on one key does not affect other keys. -/
theorem jsGet_jsSet_ne (k k' v : String) (hk : k ≠ k') :
    ∀ d : List (String × String), jsGet (jsSet d k v) k' = jsGet d k' := by
  intro d
  induction d with
  | nil =>
    have hb : (k == k') = false := by simpa using hk
    simp [jsSet, jsGet, List.find?, hb]
  | cons e rest ih =>
    by_cases he : e.1 == k
    · simp only [jsSet, he, if_true]
      have : ¬((k : String) == k') = true := by simpa using hk
      simp [jsGet, List.find?, this, eq_of_beq he]
    · simp only [jsSet, he]
      simp only [Bool.false_eq_true, if_false]
      by_cases he' : e.1 == k'
      · simp [jsGet, List.find?, he']
      · simp only [jsGet, List.find?, he']
        exact ih

/-- `updateOne` on keys outside the update entry is the identity read. -/
theorem updateOne_get_ne (s : String) (acc : List (String × String) × List Change)
    (u : String × String) (k : String) (hk : u.1 ≠ k) :
    jsGet (updateOne s acc u).1 k = jsGet acc.1 k := by
  unfold updateOne
  cases hg : jsGet acc.1 u.1 with
  | none => rfl
  | some old =>
    by_cases he : old == u.2
    · simp [he]
    · simp [he, jsGet_jsSet_ne _ _ _ hk]

/-- A section update leaves keys outside the update map untouched. -/
theorem updateSection_get_notin (s k : String) :
    ∀ (u : List (String × String)) (acc : List (String × String) × List Change),
      (∀ e ∈ u, e.1 ≠ k) →
      jsGet (u.foldl (updateOne s) acc).1 k = jsGet acc.1 k := by
  intro u
  induction u with
  | nil => intro acc _; rfl
  | cons e rest ih =>
    intro acc hall
    simp only [List.foldl_cons]
    rw [ih (updateOne s acc e) (fun x hx => hall x (List.mem_cons_of_mem _ hx))]
    exact updateOne_get_ne s acc e k (hall e (List.mem_cons_self _ _))

/-- The package produced by `updatePkgCore`, sectionwise. -/
theorem updatePkgCore_pkg (p : Pkg) (u : List (String × String)) :
    (updatePkgCore p u).1 =
      { dependencies := p.dependencies.map (fun d => (updateSection "dependencies" u d).1),
        devDependencies := p.devDependencies.map (fun d => (updateSection "devDependencies" u d).1),
        peerDependencies := p.peerDependencies.map (fun d => (updateSection "peerDependencies" u d).1) } := by
  rcases p with ⟨d1, d2, d3⟩
  cases d1 <;> cases d2 <;> cases d3 <;> rfl

/-- The changes of `replaceInSection` depend only on the old entry. -/
theorem replaceInSection_cs_congr (s o n v : String) (d e : List (String × String))
    (h : jsGet d o = jsGet e o) :
    (replaceInSection s o n v d).2 = (replaceInSection s o n v e).2 := by
  unfold replaceInSection
  rw [h]
  cases hjs : jsGet e o <;> simp [hjs]

/-- Sectionwise decomposition of the changes of `replacePkgCore`. -/
theorem replacePkgCore_cs_decomp (p : Pkg) (o n v : String) :
    (replacePkgCore p o n v).2 =
      (match p.dependencies with
       | none => [] | some d => (replaceInSection "dependencies" o n v d).2) ++
      ((match p.devDependencies with
        | none => [] | some d => (replaceInSection "devDependencies" o n v d).2) ++
       (match p.peerDependencies with
        | none => [] | some d => (replaceInSection "peerDependencies" o n v d).2)) := by
  rcases p with ⟨d1, d2, d3⟩
  cases d1 <;> cases d2 <;> cases d3 <;> simp [replacePkgCore, pkgSections]

/-- The changes of `replacePkgCore` are unchanged by a version-map update
whose keys avoid the replaced package. -/
theorem replace_after_update (p : Pkg) (u : List (String × String)) (o n v : String)
    (hnotin : ∀ e ∈ u, e.1 ≠ o) :
    (replacePkgCore (updatePkgCore p u).1 o n v).2 = (replacePkgCore p o n v).2 := by
  rw [replacePkgCore_cs_decomp, replacePkgCore_cs_decomp, updatePkgCore_pkg]
  rcases p with ⟨d1, d2, d3⟩
  simp only []
  congr 1
  · cases d1 with
    | none => rfl
    | some d =>
      simp only [Option.map_some]
      exact replaceInSection_cs_congr _ o n v _ _ (updateSection_get_notin _ o u (d, []) hnotin)
  congr 1
  · cases d2 with
    | none => rfl
    | some d =>
      simp only [Option.map_some]
      exact replaceInSection_cs_congr _ o n v _ _ (updateSection_get_notin _ o u (d, []) hnotin)
  · cases d3 with
    | none => rfl
    | some d =>
      simp only [Option.map_some]
      exact replaceInSection_cs_congr _ o n v _ _ (updateSection_get_notin _ o u (d, []) hnotin)


/-- `ite` distribution over the package-manifest field. -/
theorem ite_world_pkg (c : Prop) [Decidable c] (a b : World) :
    (if c then a else b).pkg = if c then a.pkg else b.pkg := apply_ite _ c a b

/-- `ite` distribution over the workspace-config field. -/
theorem ite_world_angularJson (c : Prop) [Decidable c] (a b : World) :
    (if c then a else b).angularJson = if c then a.angularJson else b.angularJson :=
  apply_ite _ c a b

/-- `ite` distribution over the text-files field. -/
theorem ite_world_textFiles (c : Prop) [Decidable c] (a b : World) :
    (if c then a else b).textFiles = if c then a.textFiles else b.textFiles :=
  apply_ite _ c a b

/-- `ite` distribution over the TypeScript-files field. -/
theorem ite_world_tsFiles (c : Prop) [Decidable c] (a b : World) :
    (if c then a else b).tsFiles = if c then a.tsFiles else b.tsFiles :=
  apply_ite _ c a b

/-- `ite` commutes with `some` on packages. -/
theorem ite_some_pkg (c : Prop) [Decidable c] (a b : Pkg) :
    (if c then some a else some b) = some (if c then a else b) := (apply_ite some c a b).symm

/-- `ite` commutes with `some` on configs. -/
theorem ite_some_ajson (c : Prop) [Decidable c] (a b : AJson) :
    (if c then some a else some b) = some (if c then a else b) := (apply_ite some c a b).symm

/-- `ite` distribution over `defaultProject`. -/
theorem ite_ajson_defaultProject (c : Prop) [Decidable c] (a b : AJson) :
    (if c then a else b).defaultProject = if c then a.defaultProject else b.defaultProject :=
  apply_ite _ c a b

/-- `ite` distribution over the changes of `replacePkgCore`. -/
theorem ite_replacePkgCore_cs (c : Prop) [Decidable c] (a b : Pkg) (o n v : String) :
    (replacePkgCore (if c then a else b) o n v).2 =
      if c then (replacePkgCore a o n v).2 else (replacePkgCore b o n v).2 := by
  split <;> rfl

set_option maxHeartbeats 2000000 in
/-- The v17 to v18 step computes the same changes and warnings for any two
contexts agreeing on `skipPackageJson`; in particular the dry-run flag never
influences them. -/
theorem v17ToV18run_parity (ctx₁ ctx₂ : MigrationContext)
    (hskip : ctx₁.skipPackageJson = ctx₂.skipPackageJson) (w : World) :
    (v17ToV18run ctx₁ w).map (fun p => (p.1.changes, p.1.warnings)) =
    (v17ToV18run ctx₂ w).map (fun p => (p.1.changes, p.1.warnings)) := by
  unfold v17ToV18run
  rw [updatePackageVersions_eq, updatePackageVersions_eq, ← hskip]
  by_cases hs : ctx₁.skipPackageJson
  · simp only [hs, if_true]
    simp [Bind.bind, Except.bind, Except.map, pure, Except.pure,
      migrateAsync_cs, migrateAsync_mem, removeObsoleteImport_cs,
      removeObsoleteImport_ws, removeObsoleteImport_mem, createTsProject]
  · simp only [hs, if_false, Bool.false_eq_true]
    cases hp : w.pkg with
    | none => rfl
    | some p =>
      simp [Bind.bind, Except.bind, Except.map, pure, Except.pure,
        migrateAsync_cs, migrateAsync_mem, removeObsoleteImport_cs,
        removeObsoleteImport_ws, removeObsoleteImport_mem, createTsProject,
        apply_ite World.tsFiles, writePackageJson_tsFiles]

set_option maxHeartbeats 4000000 in
/-- The v18 to v19 step computes the same changes and warnings for any two
contexts agreeing on `skipPackageJson`. -/
theorem v18ToV19run_parity (ctx₁ ctx₂ : MigrationContext)
    (hskip : ctx₁.skipPackageJson = ctx₂.skipPackageJson) (w : World) :
    (v18ToV19run ctx₁ w).map (fun p => (p.1.changes, p.1.warnings)) =
    (v18ToV19run ctx₂ w).map (fun p => (p.1.changes, p.1.warnings)) := by
  unfold v18ToV19run
  rw [updatePackageVersions_eq, updatePackageVersions_eq, ← hskip]
  by_cases hs : ctx₁.skipPackageJson
  · simp only [hs, if_true]
    simp [Bind.bind, Except.bind, Except.map, pure, Except.pure,
      renameNamedImport_cs, renameNamedImport_mem, removeWST_cs, removeWST_mem,
      removeObsoleteImport_cs, removeObsoleteImport_ws, removeObsoleteImport_mem,
      addStandaloneFalse_cs, addStandaloneFalse_mem, createTsProject]
  · simp only [hs, if_false, Bool.false_eq_true]
    cases hp : w.pkg with
    | none => rfl
    | some p =>
      simp [Bind.bind, Except.bind, Except.map, pure, Except.pure,
        renameNamedImport_cs, renameNamedImport_mem, removeWST_cs, removeWST_mem,
        removeObsoleteImport_cs, removeObsoleteImport_ws, removeObsoleteImport_mem,
        addStandaloneFalse_cs, addStandaloneFalse_mem, createTsProject,
        apply_ite World.tsFiles, writePackageJson_tsFiles]

set_option maxHeartbeats 4000000 in
/-- The v15 to v16 step computes the same changes and warnings for any two
contexts agreeing on `skipPackageJson`. -/
theorem v15ToV16run_parity (ctx₁ ctx₂ : MigrationContext)
    (hskip : ctx₁.skipPackageJson = ctx₂.skipPackageJson) (w : World) :
    (v15ToV16run ctx₁ w).map (fun p => (p.1.changes, p.1.warnings)) =
    (v15ToV16run ctx₂ w).map (fun p => (p.1.changes, p.1.warnings)) := by
  unfold v15ToV16run
  rw [updatePackageVersions_eq, updatePackageVersions_eq, ← hskip]
  by_cases hs : ctx₁.skipPackageJson
  · simp only [hs, if_true]
    simp [Bind.bind, Except.bind, Except.map, pure, Except.pure,
      moveImport_cs, moveImport_mem, removeObsoleteImport_cs,
      removeObsoleteImport_ws, removeObsoleteImport_mem,
      removeFromNgModuleArrays_cs, removeFromNgModuleArrays_mem, createTsProject]
  · simp only [hs, if_false, Bool.false_eq_true]
    cases hp : w.pkg with
    | none => rfl
    | some p =>
      simp [Bind.bind, Except.bind, Except.map, pure, Except.pure,
        moveImport_cs, moveImport_mem, removeObsoleteImport_cs,
        removeObsoleteImport_ws, removeObsoleteImport_mem,
        removeFromNgModuleArrays_cs, removeFromNgModuleArrays_mem, createTsProject,
        apply_ite World.tsFiles, writePackageJson_tsFiles]

/-- C3 counterexample: for the two-step pipeline run 17→19 on a project
whose package.json pins `typescript` at `~5.6.0`, the preview run reports
per-step change counts [1, 0] while the applied run reports [1, 1] — in
applied mode the second step sees the `~5.4.0` written by the first step and
emits a further change, while the preview's second step re-reads the
untouched disk.  The Change multisets of the two modes are therefore not
equal, refuting preview parity for multi-step runs. -/
theorem c3_preview_parity_counterexample :
    migrateChangeCounts (migrate opts17to19dry "t" c3World) = .ok [1, 0] ∧
    migrateChangeCounts (migrate opts17to19app "t" c3World) = .ok [1, 1] :=
  ⟨rfl, rfl⟩

/-- C3 (amended): for the steps that rewrite no project file before loading
the TypeScript project — v15→16, v17→18 and v18→19 — the changes and
warnings computed in preview mode are equal to those computed in applied
mode on the same project state: the dry-run flag (indeed, everything in the
context except `skipPackageJson`) influences only persistence.  The v16→17
step is excluded: its zone.js text fix rewrites candidate `.ts` files that
the subsequent project load re-reads, so its applied-mode scans can observe
the rewritten text; parity can likewise fail across multi-step runs, where
each step re-loads project files that preview did not persist. -/
theorem c3_single_step_parity (s : StepImpl)
    (hs : s ∈ [v15ToV16, v17ToV18, v18ToV19])
    (ctx₁ ctx₂ : MigrationContext) (hskip : ctx₁.skipPackageJson = ctx₂.skipPackageJson)
    (w : World) :
    (s.run ctx₁ w).map (fun p => (p.1.changes, p.1.warnings)) =
    (s.run ctx₂ w).map (fun p => (p.1.changes, p.1.warnings)) := by
  simp only [List.mem_cons, List.mem_singleton, List.not_mem_nil, or_false] at hs
  rcases hs with rfl | rfl | rfl
  · simp only [v15ToV16]
    exact v15ToV16run_parity ctx₁ ctx₂ hskip w
  · simp only [v17ToV18]
    exact v17ToV18run_parity ctx₁ ctx₂ hskip w
  · simp only [v18ToV19]
    exact v18ToV19run_parity ctx₁ ctx₂ hskip w

/-- Witness for the amended C3: preview vs applied parity of the v17→v18
step at a concrete project state. -/
theorem c3_single_step_parity_witness :
    ((v17ToV18).run ctx17to18dry c3World).map (fun p => (p.1.changes, p.1.warnings)) =
    ((v17ToV18).run ctx17to18app c3World).map (fun p => (p.1.changes, p.1.warnings)) :=
  c3_single_step_parity v17ToV18 (by simp) ctx17to18dry ctx17to18app rfl c3World

set_option maxRecDepth 4096 in
/-- The v16→17 step violates single-step preview parity: on the same project
state, whose `test.ts` is a zone-glob candidate holding a `.mutate()` call
with the deep path in its argument literal, the preview run's mutate warning
embeds the original text while the applied run's embeds the zone-fixed text —
the zone fix wrote the candidate file before the TypeScript project was
loaded. -/
theorem c3_zone_single_step_counterexample :
    ((v16ToV17).run ctx17to18dry c3ZoneWorld).map
        (fun p => (p.1.warnings.filter (fun wn => wn.file == "/p/src/test.ts")).map
          (fun wn => wn.message)) =
      .ok ["signal.mutate() removed in Angular 17. Replace with signal.update(val => \x7b ...val, changedProp \x7d). Found: sig.mutate(\x27zone.js/dist/zone\x27)"] ∧
    ((v16ToV17).run ctx17to18app c3ZoneWorld).map
        (fun p => (p.1.warnings.filter (fun wn => wn.file == "/p/src/test.ts")).map
          (fun wn => wn.message)) =
      .ok ["signal.mutate() removed in Angular 17. Replace with signal.update(val => \x7b ...val, changedProp \x7d). Found: sig.mutate(\x27zone.js\x27)"] :=
  ⟨rfl, rfl⟩

/-- Running a per-file body that fixes every file produces no changes, no
warnings, the same files and the same world. -/
theorem runPerFile_noop (f : SFile → SFile × Bool × List Change × List Warning)
    (ctx : MigrationContext) : ∀ (files : List SFile) (w : World),
    (∀ sf ∈ files, f sf = (sf, false, [], [])) →
    runPerFile f ctx files w = ([], [], files, w) := by
  intro files
  induction files with
  | nil => intro w _; rfl
  | cons sf rest ih =>
    intro w hall
    simp only [runPerFile, hall sf (List.mem_cons_self _ _)]
    simp [ih w (fun t ht => hall t (List.mem_cons_of_mem _ ht))]

/-- A file without the target import is untouched by the rename body. -/
theorem renamePerFile_noop (m o n : String) (sf : SFile)
    (h : importHasNamed sf.imports m o = false) :
    renamePerFile m o n sf = (sf, false, [], []) := by
  simp [renamePerFile, h]

/-- C4 (amended): RenameBinding (renameNamedImport). (1) If no file imports
the old name from the module, the whole pass is a no-op returning no
changes, the same files and the same world. (2) Per file, the no-op case.
(3) On a file with the import, the body identifiers are rewritten by
renameIdent, the imports by renameSpecifiers, and exactly one Change is
reported. (4) The renameIdent pass leaves untouched every identifier that
does not match the old name or sits inside an import specifier, (5) and
rewrites every other matching identifier to the new name — the only guard
the code applies is the import-specifier parent check, (6) so a matching
identifier that is the declared name of an unrelated declaration is
rewritten all the same. (7) renameSpecifiers preserves positionally every
one of the imports whose module specifier differs from the target module. -/
theorem c4_rename_binding :
    (∀ (files : List SFile) (m o n : String) (ctx : MigrationContext) (w : World),
        (∀ sf ∈ files, importHasNamed sf.imports m o = false) →
        renameNamedImport files m o n ctx w = ([], files, w)) ∧
    (∀ (m o n : String) (sf : SFile), importHasNamed sf.imports m o = false →
        renamePerFile m o n sf = (sf, false, [], [])) ∧
    (∀ (m o n : String) (sf : SFile), importHasNamed sf.imports m o = true →
        (renamePerFile m o n sf).1.bodyIdents = sf.bodyIdents.map (renameIdent o n) ∧
        (renamePerFile m o n sf).1.imports = renameSpecifiers m o n sf.imports ∧
        (renamePerFile m o n sf).2.2.1 =
          [{ file := sf.path,
             description := o ++ " → " ++ n ++ " (import from \x27" ++ m ++ "\x27)",
             before := none, after := none }]) ∧
    (∀ (o n : String) (id : IdentM), id.text ≠ o ∨ id.parentIsImportSpecifier = true →
        renameIdent o n id = id) ∧
    (∀ (o n : String) (id : IdentM), id.text = o → id.parentIsImportSpecifier = false →
        renameIdent o n id = { id with text := n }) ∧
    (∀ (o n : String) (id : IdentM), id.parentIsDeclaration = true →
        id.text = o → id.parentIsImportSpecifier = false →
        renameIdent o n id = { id with text := n }) ∧
    (∀ (m o n : String) (imps : List ImportDeclM) (i : Nat) (d : ImportDeclM),
        (imps.getD i d).moduleSpecifier ≠ m →
        (renameSpecifiers m o n imps).getD i d = imps.getD i d) := by
  refine ⟨?_, renamePerFile_noop, ?_, ?_, ?_, ?_, ?_⟩
  · intro files m o n ctx w hall
    unfold renameNamedImport
    rw [runPerFile_noop _ ctx files w (fun sf hsf => renamePerFile_noop m o n sf (hall sf hsf))]
  · intro m o n sf h
    simp [renamePerFile, h]
  · intro o n id h
    rcases h with h | h
    · simp [renameIdent, h]
    · simp [renameIdent, h]
  · intro o n id h1 h2
    simp [renameIdent, h1, h2]
  · intro o n id _ h1 h2
    simp [renameIdent, h1, h2]
  · intro m o n imps i d hd
    rcases Nat.lt_or_ge i imps.length with hi | hi
    · have hlen : i < (renameSpecifiers m o n imps).length := by
        simpa [renameSpecifiers] using hi
      rw [List.getD_eq_getElem _ _ hlen, List.getD_eq_getElem _ _ hi]
      rw [List.getD_eq_getElem _ _ hi] at hd
      simp only [renameSpecifiers, List.getElem_map]
      rw [if_neg (by simpa using hd)]
    · have h1 : (renameSpecifiers m o n imps).length ≤ i := by
        simpa [renameSpecifiers] using hi
      rw [List.getD_eq_default _ _ h1, List.getD_eq_default _ _ hi]

/-- Witness for C4 at concrete files: the no-op case, the rewrite case and a
single identifier rename. -/
theorem c4_rename_binding_witness :
    renameNamedImport [c4File] "@angular/core/testing" "async" "waitForAsync"
        ctx17to18app c2World = ([], [c4File], c2World) ∧
    (renamePerFile "@angular/core/testing" "async" "waitForAsync" c4File2).1.bodyIdents
        = c4File2.bodyIdents.map (renameIdent "async" "waitForAsync") ∧
    renameIdent "async" "waitForAsync"
        { text := "async", parentIsImportSpecifier := false }
        = { text := "waitForAsync", parentIsImportSpecifier := false } := by
  refine ⟨c4_rename_binding.1 [c4File] _ _ _ ctx17to18app c2World ?_,
          (c4_rename_binding.2.2.1 "@angular/core/testing" "async" "waitForAsync" c4File2 rfl).1,
          c4_rename_binding.2.2.2.2.1 "async" "waitForAsync" _ rfl rfl⟩
  intro sf hsf
  rw [List.mem_singleton] at hsf
  subst hsf
  rfl

/-- C4 counterexample: on a file importing the old name, a matching
identifier that is the declared name of an unrelated declaration (its
parent-is-declaration flag set, not an import specifier) is rewritten to the
new name — the code checks only the import-specifier parent, so renaming is
not limited to identifiers outside unrelated declarations. -/
theorem c4_rename_counterexample :
    (renamePerFile "@angular/core/testing" "async" "waitForAsync" c4DeclFile).1.bodyIdents =
      [{ text := "waitForAsync", parentIsImportSpecifier := false,
         parentIsDeclaration := true }] ∧
    (renamePerFile "@angular/core/testing" "async" "waitForAsync" c4DeclFile).2.2.1.length
      = 1 :=
  ⟨rfl, rfl⟩

/-- Dropping the first entry satisfying a predicate that at most one entry
satisfies leaves no satisfying entry. -/
theorem removeFirstImport_clean (p : ImportDeclM → Bool) :
    ∀ l : List ImportDeclM, l.countP p ≤ 1 → (removeFirstImport p l).any p = false := by
  intro l
  induction l with
  | nil => intro _; rfl
  | cons a rest ih =>
    intro hc
    by_cases ha : p a
    · simp only [removeFirstImport, ha, if_true]
      rw [List.countP_cons_of_pos _ _ ha] at hc
      have h0 : rest.countP p = 0 := by omega
      rw [List.countP_eq_zero] at h0
      simp only [List.any_eq_false]
      intro x hx
      simp [h0 x hx]
    · simp only [removeFirstImport, ha, Bool.false_eq_true, if_false]
      rw [List.countP_cons_of_neg _ _ ha] at hc
      simp only [List.any_cons, ih hc, Bool.or_false]
      simp [ha]

/-- Rewriting the first entry satisfying a predicate so that it no longer
satisfies it, when at most one entry satisfies it, leaves no satisfying
entry. -/
theorem modifyFirstImport_clean (p : ImportDeclM → Bool) (f : ImportDeclM → ImportDeclM) :
    ∀ l : List ImportDeclM, l.countP p ≤ 1 →
      (∀ imp ∈ l, p imp = true → p (f imp) = false) →
      (modifyFirstImport p f l).any p = false := by
  intro l
  induction l with
  | nil => intro _ _; rfl
  | cons a rest ih =>
    intro hc hall
    by_cases ha : p a
    · simp only [modifyFirstImport, ha, if_true]
      rw [List.countP_cons_of_pos _ _ ha] at hc
      have h0 : rest.countP p = 0 := by omega
      rw [List.countP_eq_zero] at h0
      simp only [List.any_cons, hall a (List.mem_cons_self _ _) ha, Bool.false_or,
        List.any_eq_false]
      intro x hx
      simp [h0 x hx]
    · simp only [modifyFirstImport, ha, Bool.false_eq_true, if_false]
      rw [List.countP_cons_of_neg _ _ ha] at hc
      simp only [List.any_cons, ih hc (fun x hx => hall x (List.mem_cons_of_mem _ hx)),
        Bool.or_false]
      simp [ha]

/-- Rewriting the first entry satisfying q preserves the absence of p when
the rewrite cannot introduce p. -/
theorem modifyFirstImport_pres_false (p q : ImportDeclM → Bool) (f : ImportDeclM → ImportDeclM) :
    ∀ l : List ImportDeclM, l.any p = false →
      (∀ imp, q imp = true → p imp = false → p (f imp) = false) →
      (modifyFirstImport q f l).any p = false := by
  intro l
  induction l with
  | nil => intro _ _; rfl
  | cons a rest ih =>
    intro hl hall
    simp only [List.any_cons, Bool.or_eq_false_iff] at hl
    by_cases ha : q a
    · simp only [modifyFirstImport, ha, if_true]
      simp only [List.any_cons, hall a ha hl.1, Bool.false_or]
      exact hl.2
    · simp only [modifyFirstImport, ha, Bool.false_eq_true, if_false]
      simp only [List.any_cons, hl.1, Bool.false_or]
      exact ih hl.2 hall

/-- Removing the first occurrence of a name occurring at most once removes
every occurrence. -/
theorem removeFirstNamed_not_mem (s : String) :
    ∀ l : List String, l.count s ≤ 1 → (removeFirstNamed s l).contains s = false := by
  intro l
  induction l with
  | nil => intro _; rfl
  | cons a rest ih =>
    intro hc
    by_cases ha : a == s
    · simp only [removeFirstNamed, ha, if_true]
      have hae : a = s := eq_of_beq ha
      rw [hae, List.count_cons_self] at hc
      have h0 : rest.count s = 0 := by omega
      simpa [List.contains_eq_any_beq, List.any_eq_false, List.count_eq_zero] using
        (List.count_eq_zero.mp h0)
    · simp only [removeFirstNamed, ha, Bool.false_eq_true, if_false]
      have hane : a ≠ s := fun he => ha (by simp [he])
      rw [List.count_cons_of_ne (Ne.symm hane)] at hc
      simp only [List.contains_cons,
        show (s == a) = false from beq_eq_false_iff_ne.mpr (Ne.symm hane), Bool.false_or]
      exact ih hc

/-- The remove phase of moveImport: with at most one binding import and no
duplicate specifier, the symbol is no longer bound from the module. -/
theorem removeSymbol_clean (fromM symbol : String) (imps : List ImportDeclM)
    (old : ImportDeclM)
    (huniq : imps.countP (importBinds fromM symbol) ≤ 1)
    (hclean : ∀ imp ∈ imps, imp.namedImports.count symbol ≤ 1) :
    (removeSymbolFromImports fromM symbol imps old).any (importBinds fromM symbol) = false := by
  unfold removeSymbolFromImports
  by_cases hlen : (old.namedImports.length == 1) = true
  · rw [if_pos hlen]
    exact removeFirstImport_clean _ imps huniq
  · rw [if_neg hlen]
    refine modifyFirstImport_clean _ _ imps huniq ?_
    intro imp hmem _
    have hc : (removeFirstNamed symbol imp.namedImports).contains symbol = false :=
      removeFirstNamed_not_mem symbol imp.namedImports (hclean imp hmem)
    simp only [importBinds]
    rw [hc, Bool.and_false]

/-- The merge branch of the add phase of moveImport makes the symbol bound
from the target module. -/
theorem modifyFirstImport_binds (toM s : String) :
    ∀ l : List ImportDeclM, l.any (fun imp => imp.moduleSpecifier == toM) = true →
      (modifyFirstImport (fun imp => imp.moduleSpecifier == toM)
        (fun imp => { imp with namedImports := imp.namedImports ++ [s] }) l).any
        (importBinds toM s) = true := by
  intro l
  induction l with
  | nil => intro h; exact absurd h (by simp)
  | cons a rest ih =>
    intro h
    by_cases ha : (a.moduleSpecifier == toM) = true
    · simp only [modifyFirstImport, ha, if_true, List.any_cons]
      have : importBinds toM s { a with namedImports := a.namedImports ++ [s] } = true := by
        simp [importBinds, ha]
      simp [this]
    · simp only [modifyFirstImport, ha, Bool.false_eq_true, if_false, List.any_cons]
      simp only [List.any_cons, ha, Bool.false_or] at h
      simp [ih h]

/-- C5 counterexample: on a file holding two separate import statements of
the same module that both bind the symbol, moveImport removes only the first,
so afterwards the symbol is importable from both the old and the new module
path, not from exactly one of them. -/
theorem c5_conservation_counterexample :
    importableFrom
        (movePerFile "ngExpressEngine" "@nguniversal/express-engine" "@angular/ssr"
          c5DupFile).1 "@nguniversal/express-engine" "ngExpressEngine" = true ∧
    importableFrom
        (movePerFile "ngExpressEngine" "@nguniversal/express-engine" "@angular/ssr"
          c5DupFile).1 "@angular/ssr" "ngExpressEngine" = true ∧
    ("@nguniversal/express-engine" : String) ≠ "@angular/ssr" :=
  ⟨rfl, rfl, by decide⟩

/-- Reading back the key just assigned yields the assigned value. -/
theorem jsGet_jsSet_self (k v : String) :
    ∀ d : List (String × String), jsGet (jsSet d k v) k = some v := by
  intro d
  induction d with
  | nil => simp [jsSet, jsGet, List.find?]
  | cons e rest ih =>
    by_cases he : e.1 == k
    · simp [jsSet, he, jsGet, List.find?]
    · simp only [jsSet, he, Bool.false_eq_true, if_false]
      simpa [jsGet, List.find?, he] using ih

/-- A section update on a section whose present entries already hold the
target versions changes nothing. -/
theorem updateSection_fixed (s : String) :
    ∀ (u : List (String × String)) (deps : List (String × String)) (cs : List Change),
      (∀ e ∈ u, jsGet deps e.1 = none ∨ jsGet deps e.1 = some e.2) →
      u.foldl (updateOne s) (deps, cs) = (deps, cs) := by
  intro u
  induction u with
  | nil => intro deps cs _; rfl
  | cons e rest ih =>
    intro deps cs hall
    simp only [List.foldl_cons]
    have he : updateOne s (deps, cs) e = (deps, cs) := by
      rcases hall e (List.mem_cons_self _ _) with hg | hg
      · simp [updateOne, hg]
      · simp [updateOne, hg]
    rw [he]
    exact ih deps cs (fun x hx => hall x (List.mem_cons_of_mem _ hx))

/-- After a section update with duplicate-free keys, each updated key that
was present holds its target version; absent keys stay absent. -/
theorem updateSection_get (s : String) :
    ∀ (u : List (String × String)) (acc : List (String × String) × List Change)
      (k v : String), (u.map Prod.fst).Nodup → (k, v) ∈ u →
      jsGet (u.foldl (updateOne s) acc).1 k = (jsGet acc.1 k).map (fun _ => v) := by
  intro u
  induction u with
  | nil => intro acc k v _ hm; cases hm
  | cons e rest ih =>
    intro acc k v hnd hm
    simp only [List.map_cons, List.nodup_cons] at hnd
    rcases List.mem_cons.mp hm with he | hm'
    · subst he
      simp only [List.foldl_cons]
      have hrest : ∀ x ∈ rest, x.1 ≠ k := by
        intro x hx hxk
        have hmem : x.1 ∈ rest.map Prod.fst := List.mem_map_of_mem Prod.fst hx
        rw [hxk] at hmem
        exact hnd.1 hmem
      rw [updateSection_get_notin s k rest _ hrest]
      cases hg : jsGet acc.1 k with
      | none => simp [updateOne, hg]
      | some old =>
        by_cases heq : (old == v) = true
        · simp [updateOne, hg, heq, eq_of_beq heq]
        · simp [updateOne, hg, heq, jsGet_jsSet_self]
    · have hk : e.1 ≠ k := by
        intro hxk
        have : k ∈ rest.map Prod.fst := List.mem_map_of_mem Prod.fst hm'
        exact hnd.1 (hxk ▸ this)
      simp only [List.foldl_cons]
      rw [ih (updateOne s acc e) k v hnd.2 hm', updateOne_get_ne s acc e k hk]

/-- A second section update on an updated section is the identity with no
changes. -/
theorem updateSection_idem (s : String) (u : List (String × String))
    (hnd : (u.map Prod.fst).Nodup) (deps : List (String × String)) :
    updateSection s u (updateSection s u deps).1 = ((updateSection s u deps).1, []) := by
  apply updateSection_fixed
  intro e he
  have hg := updateSection_get s u (deps, []) e.1 e.2 hnd (by simpa using he)
  rw [show updateSection s u deps = u.foldl (updateOne s) (deps, []) from rfl]
  rw [hg]
  cases jsGet deps e.1 with
  | none => left; rfl
  | some old => right; rfl

/-- The changes of updatePkgCore, sectionwise. -/
theorem updatePkgCore_cs (p : Pkg) (u : List (String × String)) :
    (updatePkgCore p u).2 =
      (p.dependencies.map (fun d => (updateSection "dependencies" u d).2)).getD [] ++
      (p.devDependencies.map (fun d => (updateSection "devDependencies" u d).2)).getD [] ++
      (p.peerDependencies.map (fun d => (updateSection "peerDependencies" u d).2)).getD [] := by
  rcases p with ⟨d1, d2, d3⟩
  cases d1 <;> cases d2 <;> cases d3 <;> simp [updatePkgCore, pkgSections]

/-- A second updatePkgCore on its own output yields the same package and no
changes. -/
theorem updatePkgCore_idem (p : Pkg) (u : List (String × String))
    (hnd : (u.map Prod.fst).Nodup) :
    updatePkgCore (updatePkgCore p u).1 u = ((updatePkgCore p u).1, []) := by
  apply Prod.ext
  · rw [updatePkgCore_pkg, updatePkgCore_pkg]
    rcases p with ⟨d1, d2, d3⟩
    cases d1 <;> cases d2 <;> cases d3 <;>
      simp [updateSection_idem _ _ hnd]
  · rw [updatePkgCore_cs, updatePkgCore_pkg]
    rcases p with ⟨d1, d2, d3⟩
    cases d1 <;> cases d2 <;> cases d3 <;>
      simp [updateSection_idem _ _ hnd]

/-- updatePackageVersions on a world holding a manifest, in closed form. -/
theorem updatePackageVersions_some (ctx : MigrationContext) (u : List (String × String))
    (p : Pkg) (w : World) (hp : w.pkg = some p)
    (hs : ctx.skipPackageJson = false) :
    updatePackageVersions ctx u w =
      .ok ((updatePkgCore p u).2,
        if (updatePkgCore p u).2 ≠ [] ∧ ¬ctx.dryRun = true
        then writePackageJson (updatePkgCore p u).1 w else w) := by
  unfold updatePackageVersions readPackageJson
  simp only [hs, Bool.false_eq_true, if_false, hp, Bind.bind, Except.bind]

/-- Re-running updatePackageVersions against the world it produced (applied
mode, duplicate-free update keys) reports zero changes and leaves the world
fixed. -/
theorem updatePackageVersions_second (ctx : MigrationContext) (u : List (String × String))
    (w w' : World) (cs : List Change) (hdry : ctx.dryRun = false)
    (hnd : (u.map Prod.fst).Nodup)
    (hfirst : updatePackageVersions ctx u w = .ok (cs, w')) :
    updatePackageVersions ctx u w' = .ok ([], w') := by
  by_cases hs : ctx.skipPackageJson = true
  · rw [updatePackageVersions_eq, if_pos hs] at hfirst
    have h2 : w = w' := congrArg Prod.snd (Except.ok.inj hfirst)
    rw [updatePackageVersions_eq, if_pos hs]
  · have hs' : ctx.skipPackageJson = false := eq_false_of_ne_true hs
    cases hw : w.pkg with
    | none =>
      rw [updatePackageVersions_eq, if_neg hs, hw] at hfirst
      exact absurd hfirst (by simp)
    | some p =>
      rw [updatePackageVersions_some ctx u p w hw hs'] at hfirst
      have hw' : (if (updatePkgCore p u).2 ≠ [] ∧ ¬ctx.dryRun = true
          then writePackageJson (updatePkgCore p u).1 w else w) = w' :=
        congrArg Prod.snd (Except.ok.inj hfirst)
      by_cases hc : (updatePkgCore p u).2 ≠ [] ∧ ¬ctx.dryRun = true
      · rw [if_pos hc] at hw'
        have hp' : w'.pkg = some (updatePkgCore p u).1 := by
          rw [← hw']
          rfl
        rw [updatePackageVersions_some ctx u _ w' hp' hs']
        rw [updatePkgCore_idem p u hnd]
        simp
      · rw [if_neg hc] at hw'
        have hnil : (updatePkgCore p u).2 = [] := by
          by_contra hne2
          exact hc ⟨hne2, by simp [hdry]⟩
        have hp' : w'.pkg = some p := by
          rw [← hw']
          exact hw
        rw [updatePackageVersions_some ctx u p w' hp' hs', hnil]
        simp

/-- After rewriting every occurrence of a name to a different name, the old
name is gone. -/
theorem contains_replace_ne (o n : String) (hne : o ≠ n) :
    ∀ l : List String, ((l.map (fun x => if x == o then n else x)).contains o) = false := by
  intro l
  induction l with
  | nil => rfl
  | cons x rest ih =>
    simp only [List.map_cons, List.contains_cons, ih, Bool.or_false]
    by_cases hx : (x == o) = true
    · have h1 : (o == n) = false := beq_eq_false_iff_ne.mpr hne
      have h2 : (n == o) = false := beq_eq_false_iff_ne.mpr (Ne.symm hne)
      simp [hx, h1, h2]
    · simp only [hx, Bool.false_eq_true, if_false]
      have h3 : o ≠ x := fun he => hx (by simp [he.symm])
      simp [beq_eq_false_iff_ne.mpr h3, beq_eq_false_iff_ne.mpr (Ne.symm h3)]

/-- After renameSpecifiers, no import of the module binds the old name. -/
theorem renameSpecifiers_no_old (m o n : String) (hne : o ≠ n)
    (imps : List ImportDeclM) :
    importHasNamed (renameSpecifiers m o n imps) m o = false := by
  induction imps with
  | nil => rfl
  | cons imp rest ih =>
    simp only [renameSpecifiers, List.map_cons, importHasNamed, List.any_cons] at ih ⊢
    rw [Bool.or_eq_false_iff]
    refine ⟨?_, ih⟩
    by_cases hm : (imp.moduleSpecifier == m) = true
    · simp only [hm, if_true]
      rw [contains_replace_ne o n hne imp.namedImports, Bool.and_false]
    · simp only [hm, Bool.false_eq_true, if_false]
      simp [hm]

/-- Re-running the rename body on its own output file changes nothing. -/
theorem renamePerFile_second (m o n : String) (sf : SFile) (hne : o ≠ n) :
    renamePerFile m o n ((renamePerFile m o n sf).1) =
      ((renamePerFile m o n sf).1, false, [], []) := by
  by_cases h : importHasNamed sf.imports m o = true
  · have h1 : (renamePerFile m o n sf).1.imports = renameSpecifiers m o n sf.imports := by
      simp [renamePerFile, h]
    apply renamePerFile_noop
    rw [h1]
    exact renameSpecifiers_no_old m o n hne sf.imports
  · have h0 : (renamePerFile m o n sf).1 = sf := by
      simp [renamePerFile, eq_false_of_ne_true h, renamePerFile_noop]
    rw [h0]
    exact renamePerFile_noop m o n sf (eq_false_of_ne_true h)

/-- After the move body (distinct modules, at most one binding import, no
duplicate specifier), the symbol is no longer importable from the old
module. -/
theorem movePerFile_not_from (symbol fromM toM : String) (sf : SFile)
    (old : ImportDeclM)
    (hfind : sf.imports.find? (importBinds fromM symbol) = some old)
    (huniq : sf.imports.countP (importBinds fromM symbol) ≤ 1)
    (hclean : ∀ imp ∈ sf.imports, imp.namedImports.count symbol ≤ 1)
    (hne : fromM ≠ toM) :
    importableFrom (movePerFile symbol fromM toM sf).1 fromM symbol = false := by
  have hrm : (removeSymbolFromImports fromM symbol sf.imports old).any
      (importBinds fromM symbol) = false :=
    removeSymbol_clean fromM symbol sf.imports old huniq hclean
  simp only [movePerFile, hfind, importableFrom, importHasNamed]
  by_cases hany : ((removeSymbolFromImports fromM symbol sf.imports old).any
      (fun imp => imp.moduleSpecifier == toM)) = true
  · rw [if_pos hany]
    have hpres := modifyFirstImport_pres_false (importBinds fromM symbol)
      (fun imp => imp.moduleSpecifier == toM)
      (fun imp => { imp with namedImports := imp.namedImports ++ [symbol] })
      (removeSymbolFromImports fromM symbol sf.imports old) hrm ?_
    · simpa [importBinds] using hpres
    · intro imp hq _
      have hspec : imp.moduleSpecifier = toM := eq_of_beq hq
      simp [importBinds, hspec, beq_eq_false_iff_ne.mpr (Ne.symm hne)]
  · rw [if_neg hany]
    have hee : (fun (imp : ImportDeclM) => imp.moduleSpecifier == fromM &&
        imp.namedImports.contains symbol) = importBinds fromM symbol := rfl
    rw [hee, List.any_append, hrm]
    simp [importBinds, beq_eq_false_iff_ne.mpr (Ne.symm hne)]

/-- After the move body, the symbol is bound from the target module — for
every file on which the binding import was found, with no further
assumptions: the add phase merges the symbol into an existing import of the
target module or appends a fresh one. -/
theorem movePerFile_to (symbol fromM toM : String) (sf : SFile) (old : ImportDeclM)
    (hfind : sf.imports.find? (importBinds fromM symbol) = some old) :
    importableFrom (movePerFile symbol fromM toM sf).1 toM symbol = true := by
  simp only [movePerFile, hfind, importableFrom, importHasNamed]
  by_cases hany : ((removeSymbolFromImports fromM symbol sf.imports old).any
      (fun imp => imp.moduleSpecifier == toM)) = true
  · rw [if_pos hany]
    have hb := modifyFirstImport_binds toM symbol _ hany
    simpa [importBinds] using hb
  · rw [if_neg hany]
    simp [importBinds]

/-- C5 (amended): RelocateBinding conservation. (1) For every file on which
moveImport found the binding import, the symbol is importable from toModule
afterwards — unconditionally, duplicate-binding files included, and also in
the degenerate case fromModule = toModule, despite the remove-then-add
order; hence it is never importable from neither module. (2) It is
importable from exactly one of the two modules only under uniqueness: when
the file binds the symbol from fromModule in at most one import statement
and never twice inside one statement, and the modules differ, the symbol is
no longer importable from fromModule. (3) The file list moveImport returns
is exactly the per-file results. -/
theorem c5_relocate_conservation :
    (∀ (symbol fromM toM : String) (sf : SFile) (old : ImportDeclM),
        sf.imports.find? (importBinds fromM symbol) = some old →
        importableFrom (movePerFile symbol fromM toM sf).1 toM symbol = true) ∧
    (∀ (symbol fromM toM : String) (sf : SFile) (old : ImportDeclM),
        sf.imports.find? (importBinds fromM symbol) = some old →
        sf.imports.countP (importBinds fromM symbol) ≤ 1 →
        (∀ imp ∈ sf.imports, imp.namedImports.count symbol ≤ 1) →
        fromM ≠ toM →
        importableFrom (movePerFile symbol fromM toM sf).1 fromM symbol = false) ∧
    (∀ (symbol fromM toM : String) (ctx : MigrationContext) (w : World)
        (files : List SFile),
        (moveImport files symbol fromM toM ctx w).2.1 =
          files.map (fun f => (movePerFile symbol fromM toM f).1)) := by
  refine ⟨movePerFile_to, movePerFile_not_from, ?_⟩
  intro symbol fromM toM ctx w files
  rw [moveImport_mem]
  rfl

/-- Witness for C5 at concrete files: the duplicate-binding file (no
uniqueness) and the single-import file. -/
theorem c5_relocate_conservation_witness :
    importableFrom
        (movePerFile "ngExpressEngine" "@nguniversal/express-engine" "@angular/ssr"
          c5DupFile).1 "@angular/ssr" "ngExpressEngine" = true ∧
    importableFrom
        (movePerFile "ngExpressEngine" "@nguniversal/express-engine" "@angular/ssr"
          c5GoodFile).1 "@angular/ssr" "ngExpressEngine" = true ∧
    importableFrom
        (movePerFile "ngExpressEngine" "@nguniversal/express-engine" "@angular/ssr"
          c5GoodFile).1 "@nguniversal/express-engine" "ngExpressEngine" = false :=
  ⟨c5_relocate_conservation.1 "ngExpressEngine" "@nguniversal/express-engine"
      "@angular/ssr" c5DupFile _ rfl,
   c5_relocate_conservation.1 "ngExpressEngine" "@nguniversal/express-engine"
      "@angular/ssr" c5GoodFile _ rfl,
   c5_relocate_conservation.2.1 "ngExpressEngine" "@nguniversal/express-engine"
      "@angular/ssr" c5GoodFile _ rfl (by decide) (by decide) (by decide)⟩

/-- Re-running the move body on its own output file changes nothing. -/
theorem movePerFile_second (symbol fromM toM : String) (sf : SFile)
    (old : ImportDeclM)
    (hfind : sf.imports.find? (importBinds fromM symbol) = some old)
    (huniq : sf.imports.countP (importBinds fromM symbol) ≤ 1)
    (hclean : ∀ imp ∈ sf.imports, imp.namedImports.count symbol ≤ 1)
    (hne : fromM ≠ toM) :
    movePerFile symbol fromM toM ((movePerFile symbol fromM toM sf).1) =
      ((movePerFile symbol fromM toM sf).1, false, [], []) := by
  have hno := movePerFile_not_from symbol fromM toM sf old hfind huniq hclean hne
  simp only [importableFrom, importHasNamed] at hno
  have hnone : ((movePerFile symbol fromM toM sf).1).imports.find?
      (importBinds fromM symbol) = none := by
    rw [List.find?_eq_none]
    intro x hx
    have hx2 := List.any_eq_false.mp hno x hx
    simpa [importBinds] using hx2
  generalize hT : (movePerFile symbol fromM toM sf).1 = T at hnone ⊢
  simp only [movePerFile, hnone]

/-- Re-running the obsolete-import removal body on its own output file
changes nothing. -/
theorem removeObsPerFile_second (m s : String) (sf : SFile)
    (huniq : sf.imports.countP (importBinds m s) ≤ 1)
    (hclean : ∀ imp ∈ sf.imports, imp.namedImports.count s ≤ 1) :
    removeObsPerFile m s ((removeObsPerFile m s sf).1) =
      ((removeObsPerFile m s sf).1, false, [], []) := by
  cases hf : sf.imports.find? (importBinds m s) with
  | none =>
    have h0 : (removeObsPerFile m s sf).1 = sf := by simp [removeObsPerFile, hf]
    rw [h0]
    simp [removeObsPerFile, hf]
  | some imp =>
    have h1 : (removeObsPerFile m s sf).1 =
        { sf with imports := removeSymbolFromImports m s sf.imports imp } := by
      simp [removeObsPerFile, hf]
    have hclean2 := removeSymbol_clean m s sf.imports imp huniq hclean
    have hnone : (removeSymbolFromImports m s sf.imports imp).find?
        (importBinds m s) = none := by
      rw [List.find?_eq_none]
      intro x hx
      simpa using List.any_eq_false.mp hclean2 x hx
    rw [h1]
    simp [removeObsPerFile, hnone]

/-- A second standalone insertion on an already-processed decorator is the
identity with no changes. -/
theorem standaloneDecorator_idem (c : Option String) (p : String) (dec : DecoratorM) :
    standaloneDecorator c p (standaloneDecorator c p dec).1 =
      ((standaloneDecorator c p dec).1, []) := by
  obtain ⟨dname, dargs⟩ := dec
  by_cases hn : (standaloneDecoratorNames.contains dname) = true
  · cases dargs with
    | nil => simp [standaloneDecorator, hn]
    | cons arg0 restArgs =>
      cases arg0 with
      | otherArg t => simp [standaloneDecorator, hn]
      | objectLit props =>
        by_cases hstand : (props.any (fun pr =>
            pr.kind == PropKindM.propertyAssignment && pr.name == "standalone")) = true
        · simp [standaloneDecorator, hn, hstand]
        · have hst : (props.any (fun pr =>
              pr.kind == PropKindM.propertyAssignment && pr.name == "standalone")) = false :=
            eq_false_of_ne_true hstand
          have h1 : standaloneDecorator c p ⟨dname, DecArgM.objectLit props :: restArgs⟩ =
              (⟨dname, DecArgM.objectLit
                  ({ kind := PropKindM.propertyAssignment, name := "standalone",
                     value := PropValM.textVal "false" } :: props) :: restArgs⟩,
               [{ file := p,
                  description := "@" ++ dname ++ "(" ++ c.getD "" ++
                    "): added standalone: false (Angular 19 default changed to true)",
                  before := none, after := none }]) := by
            unfold standaloneDecorator
            simp only [hn, Bool.not_true, Bool.false_eq_true, if_false, hst]
          rw [h1]
          unfold standaloneDecorator
          simp only [hn, Bool.not_true, Bool.false_eq_true, if_false]
          simp
  · have hn2 : dname ∉ standaloneDecoratorNames := by simpa using hn
    simp [standaloneDecorator, hn2]

/-- Flattening a map to empty lists is empty. -/
theorem flatten_map_nil {α : Type} {β : Type} (l : List α) :
    (l.map (fun _ => ([] : List β))).flatten = [] := by
  induction l with
  | nil => rfl
  | cons x rest ih => simp [ih]

/-- Re-running the per-file standalone insertion on its own output file
changes nothing. -/
theorem standalonePerFile_idem (sf : SFile) :
    standalonePerFile (standalonePerFile sf).1 = ((standalonePerFile sf).1, false, [], []) := by
  simp only [standalonePerFile, List.map_map]
  simp only [Function.comp_def, standaloneDecorator_idem, List.map_map]
  simp [flatten_map_nil]

/-- Re-running addStandaloneFalse on the file list it produced reports zero
changes, returns the same files and does not touch the world. -/
theorem addStandaloneFalse_second (files : List SFile) (ctx ctx2 : MigrationContext)
    (w w2 : World) :
    addStandaloneFalse ((addStandaloneFalse files ctx w).2.1) ctx2 w2 =
      ([], (addStandaloneFalse files ctx w).2.1, w2) := by
  rw [addStandaloneFalse_mem]
  have hnoop : runPerFile standalonePerFile ctx2 (perFileMem standalonePerFile files) w2 =
      ([], [], perFileMem standalonePerFile files, w2) := by
    apply runPerFile_noop
    intro sf hsf
    simp only [perFileMem, List.mem_map] at hsf
    obtain ⟨sf0, _, rfl⟩ := hsf
    exact standalonePerFile_idem sf0
  simp only [addStandaloneFalse]
  rw [hnoop]

/-- C6 (amended): second-run no-ops of the step primitives. (1) Re-running a
package-version update (applied mode, duplicate-free update keys) against the
world it produced reports zero changes. (2) Re-running the rename body on its
output file (distinct old and new names) changes nothing. (3) Re-running the
move body on its output file (distinct modules, at most one binding import,
no duplicate specifier) changes nothing. (4) Re-running the obsolete-import
removal body on its output file (same uniqueness assumptions) changes
nothing. (5) Re-running addStandaloneFalse on its output files reports zero
changes, unconditionally. -/
theorem c6_idempotence :
    (∀ (ctx : MigrationContext) (u : List (String × String)) (w w' : World)
        (cs : List Change),
        ctx.dryRun = false → (u.map Prod.fst).Nodup →
        updatePackageVersions ctx u w = .ok (cs, w') →
        updatePackageVersions ctx u w' = .ok ([], w')) ∧
    (∀ (m o n : String) (sf : SFile), o ≠ n →
        renamePerFile m o n ((renamePerFile m o n sf).1) =
          ((renamePerFile m o n sf).1, false, [], [])) ∧
    (∀ (symbol fromM toM : String) (sf : SFile) (old : ImportDeclM),
        sf.imports.find? (importBinds fromM symbol) = some old →
        sf.imports.countP (importBinds fromM symbol) ≤ 1 →
        (∀ imp ∈ sf.imports, imp.namedImports.count symbol ≤ 1) →
        fromM ≠ toM →
        movePerFile symbol fromM toM ((movePerFile symbol fromM toM sf).1) =
          ((movePerFile symbol fromM toM sf).1, false, [], [])) ∧
    (∀ (m s : String) (sf : SFile),
        sf.imports.countP (importBinds m s) ≤ 1 →
        (∀ imp ∈ sf.imports, imp.namedImports.count s ≤ 1) →
        removeObsPerFile m s ((removeObsPerFile m s sf).1) =
          ((removeObsPerFile m s sf).1, false, [], [])) ∧
    (∀ (files : List SFile) (ctx ctx2 : MigrationContext) (w w2 : World),
        addStandaloneFalse ((addStandaloneFalse files ctx w).2.1) ctx2 w2 =
          ([], (addStandaloneFalse files ctx w).2.1, w2)) :=
  ⟨fun ctx u w w' cs hd hn hf => updatePackageVersions_second ctx u w w' cs hd hn hf,
   fun m o n sf hne => renamePerFile_second m o n sf hne,
   fun symbol fromM toM sf old hfind huniq hclean hne =>
     movePerFile_second symbol fromM toM sf old hfind huniq hclean hne,
   fun m s sf huniq hclean => removeObsPerFile_second m s sf huniq hclean,
   fun files ctx ctx2 w w2 => addStandaloneFalse_second files ctx ctx2 w w2⟩

/-- C6 counterexample: on a file holding two separate import statements of
the same module binding the same symbol, the obsolete-import removal removes
only the first, so re-running it against its own output produces one more
Change instead of zero. -/
theorem c6_idempotence_counterexample :
    (removeObsPerFile "@nguniversal/express-engine" "ngExpressEngine" c5DupFile).2.2.1.length
        = 1 ∧
    (removeObsPerFile "@nguniversal/express-engine" "ngExpressEngine"
        ((removeObsPerFile "@nguniversal/express-engine" "ngExpressEngine"
          c5DupFile).1)).2.2.1.length = 1 :=
  ⟨rfl, rfl⟩

/-- Witness for C6 at concrete inputs: each hypothesised conjunct applied to
a concrete manifest or file. -/
theorem c6_idempotence_witness :
    updatePackageVersions ctx17to18app c6U c6Wdone = .ok ([], c6Wdone) ∧
    renamePerFile "@angular/core/testing" "async" "waitForAsync"
        ((renamePerFile "@angular/core/testing" "async" "waitForAsync" c4File2).1) =
      ((renamePerFile "@angular/core/testing" "async" "waitForAsync" c4File2).1,
        false, [], []) ∧
    movePerFile "ngExpressEngine" "@nguniversal/express-engine" "@angular/ssr"
        ((movePerFile "ngExpressEngine" "@nguniversal/express-engine" "@angular/ssr"
          c5GoodFile).1) =
      ((movePerFile "ngExpressEngine" "@nguniversal/express-engine" "@angular/ssr"
          c5GoodFile).1, false, [], []) ∧
    removeObsPerFile "@nguniversal/express-engine" "CommonEngine"
        ((removeObsPerFile "@nguniversal/express-engine" "CommonEngine" c5GoodFile).1) =
      ((removeObsPerFile "@nguniversal/express-engine" "CommonEngine" c5GoodFile).1,
        false, [], []) :=
  ⟨c6_idempotence.1 ctx17to18app c6U c6W c6Wdone c6Cs rfl (by decide) rfl,
   c6_idempotence.2.1 "@angular/core/testing" "async" "waitForAsync" c4File2 (by decide),
   c6_idempotence.2.2.1 "ngExpressEngine" "@nguniversal/express-engine" "@angular/ssr"
     c5GoodFile _ rfl (by decide) (by decide) (by decide),
   c6_idempotence.2.2.2.1 "@nguniversal/express-engine" "CommonEngine" c5GoodFile
     (by decide) (by decide)⟩

/-- C7 (amended): InsertMetadataProperty (addStandaloneFalse). (1) If a
property assignment named standalone already exists in the decorator
literal, the decorator is returned unchanged with no Change — the guard
checks property assignments only, not every property of that name. (2) If
the decorator is a Component/Directive/Pipe and no property assignment of
that name exists, exactly one Change is produced and the property is
inserted first — even when a shorthand property named standalone is present.
(3) Invoking the insertion twice yields the first result and no second
Change, so two invocations produce exactly the first invocation's changes.
(4) The per-file pass is a no-op on its own output. -/
theorem c7_insert_metadata :
    (∀ (c : Option String) (p : String) (dec : DecoratorM) (props : List ObjPropM)
        (rest : List DecArgM),
        dec.args = DecArgM.objectLit props :: rest →
        (props.any (fun pr => pr.kind == PropKindM.propertyAssignment &&
          pr.name == "standalone")) = true →
        standaloneDecorator c p dec = (dec, [])) ∧
    (∀ (c : Option String) (p : String) (dec : DecoratorM) (props : List ObjPropM)
        (rest : List DecArgM),
        standaloneDecoratorNames.contains dec.name = true →
        dec.args = DecArgM.objectLit props :: rest →
        (props.any (fun pr => pr.kind == PropKindM.propertyAssignment &&
          pr.name == "standalone")) = false →
        (standaloneDecorator c p dec).2.length = 1 ∧
        (standaloneDecorator c p dec).1.args =
          DecArgM.objectLit
            ({ kind := PropKindM.propertyAssignment, name := "standalone",
               value := PropValM.textVal "false" } :: props) :: rest) ∧
    (∀ (c : Option String) (p : String) (dec : DecoratorM),
        standaloneDecorator c p (standaloneDecorator c p dec).1 =
          ((standaloneDecorator c p dec).1, []) ∧
        ((standaloneDecorator c p dec).2 ++
          (standaloneDecorator c p (standaloneDecorator c p dec).1).2) =
          (standaloneDecorator c p dec).2) ∧
    (∀ sf : SFile, standalonePerFile (standalonePerFile sf).1 =
        ((standalonePerFile sf).1, false, [], [])) := by
  refine ⟨?_, ?_, ?_, standalonePerFile_idem⟩
  · intro c p dec props rest hargs hst
    obtain ⟨dname, dargs⟩ := dec
    simp only at hargs
    subst hargs
    by_cases hn : (standaloneDecoratorNames.contains dname) = true
    · simp [standaloneDecorator, hn, hst]
    · have hn2 : dname ∉ standaloneDecoratorNames := by simpa using hn
      simp [standaloneDecorator, hn2]
  · intro c p dec props rest hn hargs hst
    obtain ⟨dname, dargs⟩ := dec
    simp only at hargs hn
    subst hargs
    have h1 : standaloneDecorator c p ⟨dname, DecArgM.objectLit props :: rest⟩ =
        (⟨dname, DecArgM.objectLit
            ({ kind := PropKindM.propertyAssignment, name := "standalone",
               value := PropValM.textVal "false" } :: props) :: rest⟩,
         [{ file := p,
            description := "@" ++ dname ++ "(" ++ c.getD "" ++
              "): added standalone: false (Angular 19 default changed to true)",
            before := none, after := none }]) := by
      unfold standaloneDecorator
      simp only [hn, Bool.not_true, Bool.false_eq_true, if_false, hst]
    rw [h1]
    exact ⟨rfl, rfl⟩
  · intro c p dec
    refine ⟨standaloneDecorator_idem c p dec, ?_⟩
    rw [standaloneDecorator_idem c p dec]
    simp

/-- C7 counterexample: the decorator literal already holds a property named
standalone (a shorthand property), yet the insertion is not suppressed — the
guard tests `Node.isPropertyAssignment` only, so a Change is produced and a
second standalone property is inserted in front of the existing one. -/
theorem c7_insert_counterexample :
    (([{ kind := PropKindM.shorthandPropertyAssignment, name := "standalone",
         value := PropValM.textVal "standalone" }] : List ObjPropM).any
      (fun pr => pr.name == "standalone")) = true ∧
    (standaloneDecorator (some "XComponent") "/p/src/x.ts" c7DecShorthand).2.length = 1 ∧
    (standaloneDecorator (some "XComponent") "/p/src/x.ts" c7DecShorthand).1.args =
      [DecArgM.objectLit
        [{ kind := PropKindM.propertyAssignment, name := "standalone",
           value := PropValM.textVal "false" },
         { kind := PropKindM.shorthandPropertyAssignment, name := "standalone",
           value := PropValM.textVal "standalone" }]] :=
  ⟨rfl, rfl, rfl⟩

/-- Witness for C7 at concrete decorators: the guard case and the insert
case. -/
theorem c7_insert_metadata_witness :
    standaloneDecorator (some "XComponent") "/p/src/x.ts" c7DecStandalone =
      (c7DecStandalone, []) ∧
    (standaloneDecorator (some "XComponent") "/p/src/x.ts" c7Dec).2.length = 1 :=
  ⟨c7_insert_metadata.1 (some "XComponent") "/p/src/x.ts" c7DecStandalone
      [{ kind := PropKindM.propertyAssignment, name := "standalone",
         value := PropValM.textVal "true" }] [] rfl rfl,
   (c7_insert_metadata.2.1 (some "XComponent") "/p/src/x.ts" c7Dec
      [{ kind := PropKindM.propertyAssignment, name := "selector",
         value := PropValM.textVal "app-x" }] [] rfl rfl rfl).1⟩

end AngularMigrator
